import Mathlib

/-!
# Verification of the vinylcollection-enricher pipeline

Shallow embedding of the Cloudflare worker `vinylcollection-enricher` v4.2.4
(source file `src/unnamed/part_002`).  JavaScript strings that may be
`undefined`/`null` are modelled as `Option String`; JS truthiness of a string
value (`undefined`, `null` and the empty string are falsy) is `strTruthy`.
Network effects are modelled by an explicit `Oracle` that maps each outbound
request to the HTTP attempt(s) it would observe; every stage is a pure
function from the oracle, the seed and the output document to the new output
document, mirroring the source statement by statement.  URL percent-encoding
(`encodeURIComponent` / `decodeURIComponent`) and JSON parsing are abstracted:
response bodies arrive as already-structured values carrying exactly the
fields the worker reads.
-/

namespace Enricher

/-- Truthiness of a JS string value: `undefined`/`null`/`""` are falsy. -/
def strTruthy : Option String → Bool
  | none => false
  | some s => s ≠ ""

/-- JS `a || b` on two possibly-absent string values. -/
def jsOr (a b : Option String) : Option String :=
  if strTruthy a then a else b

/-- `getStr v` is the string content of a truthy JS string value. -/
def getStr (v : Option String) : String := v.getD ""

/-- JS `Response.ok`: status in the 2xx range. -/
def isOkStatus (s : Nat) : Bool := 200 ≤ s && s < 300

/-- One diagnostics entry `{url, status}` as pushed into the `*_http` logs. -/
structure HttpEntry where
  url : String
  status : Nat
  deriving Repr, DecidableEq

/-- One HTTP attempt as decided by the network: the status code and the
body that would be delivered on a 2xx status. -/
structure HttpAttempt (α : Type) where
  status : Nat
  body : α
  deriving Repr, DecidableEq

/-- Result of one `GETjson` call: the parsed body (or `null`), the
diagnostics entries appended (in call order) and the backoff sleeps
performed (milliseconds). -/
structure GetOutcome (α : Type) where
  result : Option α
  entries : List HttpEntry
  sleepsMs : List Nat
  deriving Repr, DecidableEq

/-- Embedding of `GETjson(base, path, diagArr, qs)` (part_002 lines 231-245):
one fetch; on status 429 sleep 2000 ms and retry exactly once, logging the
retry as `path ++ " (retry)"`; otherwise the body on 2xx and `null` on any
other status.  `a1`/`a2` are the attempts the network would answer with. -/
def GETjson {α : Type} (path qs : String) (a1 a2 : HttpAttempt α) : GetOutcome α :=
  let u1 := path ++ (if qs = "" then "" else "?" ++ qs)
  if a1.status = 429 then
    { result := if isOkStatus a2.status then some a2.body else none
      entries := [⟨u1, a1.status⟩, ⟨path ++ " (retry)", a2.status⟩]
      sleepsMs := [2000] }
  else if isOkStatus a1.status then
    { result := some a1.body, entries := [⟨u1, a1.status⟩], sleepsMs := [] }
  else
    { result := none, entries := [⟨u1, a1.status⟩], sleepsMs := [] }

/-- Insertion-order set construction: the contents of `new Set(l)` read back
in insertion order, with `seen` the elements already inserted. -/
def setDedupAux (seen : List String) : List String → List String
  | [] => []
  | x :: xs =>
    if x ∈ seen then setDedupAux seen xs
    else x :: setDedupAux (x :: seen) xs

/-- Embedding of `dedupe(arr)` (part_002 lines 167-169):
`Array.from(new Set((arr || []).filter(Boolean)))`. -/
def dedupe (l : List String) : List String :=
  setDedupAux [] (l.filter (fun s => s ≠ ""))

/-- Embedding of `normalizeBarcode(b)` (part_002 lines 156-165). -/
def normalizeBarcode : Option String → Option String
  | none => none
  | some s =>
    if s = "" then none
    else
      let digits := s.data.filter Char.isDigit
      if digits = [] then none
      else if digits.length = 12 then some (String.mk digits)
      else if digits.length = 13 then some (String.mk digits)
      else
        let stripped := digits.dropWhile (fun c => c = '0')
        if stripped = [] then some (String.mk digits) else some (String.mk stripped)

/-- JS `String.prototype.padStart(n, "0")`. -/
def padStartZero (s : String) (n : Nat) : String :=
  if s.data.length ≥ n then s
  else String.mk (List.replicate (n - s.data.length) '0' ++ s.data)

/-- Embedding of `stripHtml(s)` (part_002 lines 171-173):
`s.replace(/<[^>]+>/g, "")`.  A `<` opens a tag only when a non-empty run of
non-`>` characters is followed by `>`; otherwise the `<` is kept, exactly as
the regex leaves unmatched text in place. -/
def stripHtmlFuel : Nat → List Char → List Char
  | _, [] => []
  | 0, l => l
  | fuel + 1, c :: rest =>
    if c = '<' then
      let inner := rest.takeWhile (fun x => x ≠ '>')
      if inner ≠ [] ∧ rest.drop inner.length ≠ [] then
        stripHtmlFuel fuel (rest.drop (inner.length + 1))
      else
        '<' :: stripHtmlFuel fuel rest
    else
      c :: stripHtmlFuel fuel rest

/-- `stripHtmlL` with enough fuel for the whole list (every step consumes
at least one character, so `l.length` steps always suffice). -/
def stripHtmlL (l : List Char) : List Char := stripHtmlFuel l.length l

/-- `stripHtml` on strings. -/
def stripHtml (s : String) : String := String.mk (stripHtmlL s.data)

/-- JS `String.prototype.trim()`: drop whitespace from both ends. -/
def trimWs (s : String) : String :=
  String.mk (((s.data.dropWhile Char.isWhitespace).reverse.dropWhile Char.isWhitespace).reverse)

/-- JS `s.replace(/\s+/g, " ")`: collapse every whitespace run to one space. -/
def collapseWsFuel : Nat → List Char → List Char
  | _, [] => []
  | 0, l => l
  | fuel + 1, c :: rest =>
    if c.isWhitespace then
      ' ' :: collapseWsFuel fuel (rest.dropWhile Char.isWhitespace)
    else
      c :: collapseWsFuel fuel rest

/-- `collapseWsFuel` with enough fuel for the whole list. -/
def collapseWsL (l : List Char) : List Char := collapseWsFuel l.length l

/-- `replace(/\s+/g, " ")` on strings. -/
def collapseWs (s : String) : String := String.mk (collapseWsL s.data)

/-- JS `\w`: `[A-Za-z0-9_]`. -/
def isWordChar (c : Char) : Bool :=
  ('a' ≤ c && c ≤ 'z') || ('A' ≤ c && c ≤ 'Z') || ('0' ≤ c && c ≤ '9') || c = '_'

/-- Embedding of `titleCase(s)` (part_002 lines 175-177):
`s.replace(/\b\w/g, c => c.toUpperCase())` — uppercase every word character
that is not preceded by a word character. -/
def titleCaseL : Option Char → List Char → List Char
  | _, [] => []
  | prev, c :: rest =>
    let atBoundary := match prev with
      | none => true
      | some p => !isWordChar p
    let c' := if isWordChar c && atBoundary then c.toUpper else c
    c' :: titleCaseL (some c) rest

/-- `titleCase` on strings. -/
def titleCase (s : String) : String := String.mk (titleCaseL none s.data)

/-- Case-insensitive prefix test: `pat` (given lowercased) is a prefix of `l`
up to ASCII case. -/
def isPrefixCI (pat l : List Char) : Bool :=
  ((l.take pat.length).map Char.toLower) == pat

/-- Case-insensitive substring test (`/pat/i.test(s)` for a literal pattern). -/
def containsCI (pat : List Char) : List Char → Bool
  | [] => isPrefixCI pat []
  | l@(_ :: t) => isPrefixCI pat l || containsCI pat t

/-- `containsCI` on strings; the pattern is written lowercased. -/
def strContainsCI (s pat : String) : Bool := containsCI pat.data s.data

/-- `/p\s*q/i.test(s)` for literal word parts `p`, `q` (given lowercased):
somewhere in `l`, `p` occurs, followed by optional whitespace, then `q`. -/
def matchGapStar (p q : List Char) : List Char → Bool
  | [] => isPrefixCI p [] && isPrefixCI q []
  | l@(_ :: t) =>
    (isPrefixCI p l && isPrefixCI q ((l.drop p.length).dropWhile Char.isWhitespace))
      || matchGapStar p q t

/-- First match of the case-insensitive literal pattern `pat` inside `l`,
returned as the actual matched span of `l` (what JS `s.match(/pat/i)[0]`
yields). -/
def findCI (pat : List Char) : List Char → Option (List Char)
  | [] => if isPrefixCI pat [] then some [] else none
  | l@(_ :: t) =>
    if isPrefixCI pat l then some (l.take pat.length) else findCI pat t

/-- First match of `/riaa\s+certified/i` style patterns: literal `p`, one or
more whitespace characters, literal `q`; returns the matched span. -/
def findGapPlusCI (p q : List Char) : List Char → Option (List Char)
  | [] => none
  | l@(_ :: t) =>
    (if isPrefixCI p l then
      let ws := (l.drop p.length).takeWhile Char.isWhitespace
      if ws ≠ [] && isPrefixCI q ((l.drop p.length).drop ws.length) then
        some (l.take (p.length + ws.length + q.length))
      else none
    else none).orElse (fun _ => findGapPlusCI p q t)

/-- `/^\d+/.test(s)`: the string starts with a decimal digit. -/
def startsWithDigit (s : String) : Bool :=
  match s.data with
  | [] => false
  | c :: _ => c.isDigit

/-- JS `s.split(sep)[1]` for a literal separator (`undefined` → `none`). -/
def jsSplitAt1 (s sep : String) : Option String := (s.splitOn sep).get? 1

/-- JS `x.split(/[?#]/)[0]`: the prefix before the first `?` or `#`. -/
def takeUntilQueryHash (s : String) : String :=
  String.mk (s.data.takeWhile (fun c => c ≠ '?' && c ≠ '#'))

/-- JS `hay.includes(needle)`. -/
def strIncludes (hay needle : String) : Bool := decide (needle.data <:+: hay.data)

/-- JS `s.split("/").pop()` for the non-empty split result. -/
def jsSplitPop (s : String) : String := ((s.splitOn "/").getLast?).getD ""

/-- JS `String(x).slice(0, 4)`. -/
def strTake4 (s : String) : String := String.mk (s.data.take 4)

/-- JS `s.startsWith(p)`. -/
def strStartsWith (s p : String) : Bool := p.data.isPrefixOf s.data

/-- Split on runs of whitespace, as `trim().split(/\s+/)` produces on an
already-trimmed string: non-empty tokens in order. -/
def wsSplitFuel : Nat → List Char → List (List Char)
  | _, [] => []
  | 0, _ => []
  | fuel + 1, c :: cs =>
    if c.isWhitespace then wsSplitFuel fuel cs
    else
      (c :: cs.takeWhile (fun x => !x.isWhitespace))
        :: wsSplitFuel fuel (cs.dropWhile (fun x => !x.isWhitespace))

/-- `wsSplitFuel` with enough fuel for the whole list. -/
def wsSplit (l : List Char) : List (List Char) := wsSplitFuel l.length l

/-! ## Seed parsing (part_002 lines 181-223) -/

/-- The seed record built by `parseSeed` (part_002 lines 182-193); every
field is a query parameter that may be absent. -/
structure Seed where
  upc : Option String := none
  mbid : Option String := none
  mb_release_mbid : Option String := none
  mb_release_group : Option String := none
  mb_artist_id : Option String := none
  discogs : Option String := none
  discogs_master_id : Option String := none
  qid : Option String := none
  title : Option String := none
  artist : Option String := none
  deriving Repr, DecidableEq

/-- A character of the `[a-z_]` class under the `/i` flag. -/
def isKeyChar (c : Char) : Bool :=
  ('a' ≤ c && c ≤ 'z') || ('A' ≤ c && c ≤ 'Z') || c = '_'

/-- `p.match(/^([a-z_]+):(.*)$/i)` on one token: the maximal key-character
prefix must be non-empty and immediately followed by `:`; the value is the
rest of the token.  The key is lowercased as in `m[1].toLowerCase()`. -/
def tokenKV (tok : List Char) : Option (String × String) :=
  let pre := tok.takeWhile isKeyChar
  if pre = [] then none
  else
    match tok.drop pre.length with
    | ':' :: rest => some (String.mk (pre.map Char.toLower), String.mk rest)
    | _ => none

/-- `v.replace(/^"(.+)"$/, "$1")`: strip one pair of surrounding double
quotes when the value is fully quoted with at least one character inside. -/
def unquote (v : String) : String :=
  match v.data with
  | '"' :: rest =>
    if rest.length ≥ 2 && rest.getLast? = some '"' then String.mk rest.dropLast else v
  | _ => v

/-- The per-key assignment block of the cmd loop (part_002 lines 204-209). -/
def assignKey (k v : String) (s : Seed) : Seed :=
  let s := if k = "upc" || k = "ean" || k = "barcode" then { s with upc := some v } else s
  let s := if k = "mbid" then { s with mbid := some v } else s
  let s := if k = "discogs" then { s with discogs := some v } else s
  let s := if k = "qid" then { s with qid := some v } else s
  let s := if k = "artist" then { s with artist := some v } else s
  let s := if k = "title" then { s with title := some v } else s
  s

/-- The cmd mini-grammar loop of `parseSeed` (part_002 lines 195-211):
trim, split on whitespace, and for every `key:value` token assign the
(unquoted) value to the recognized seed field, later tokens overwriting
earlier ones. -/
def applyCmd (cmd : String) (s : Seed) : Seed :=
  (wsSplit (trimWs cmd).data).foldl
    (fun acc tok =>
      match tokenKV tok with
      | none => acc
      | some (k, v) => assignKey k (unquote v) acc)
    s

/-- Embedding of `parseSeed(url, cmd)` (part_002 lines 181-213): `base` is
the seed assembled from the query parameters; when a cmd string is present
its tokens are applied on top. -/
def parseSeed (base : Seed) (cmd : Option String) : Seed :=
  match cmd with
  | none => base
  | some c => applyCmd c base

/-! ## Output document (part_002 lines 102-127) -/

/-- Request flags (part_002 lines 43-48). -/
structure Flags where
  all : Bool := false
  images : String := "both"
  lang : String := "en"
  max_images : Nat := 12
  deriving Repr, DecidableEq

/-- A resolved external identifier `{id, url}`. -/
structure IdRef where
  id : String
  url : String
  deriving Repr, DecidableEq

/-- The canonical record (initialised at part_002 lines 107-110). -/
structure Canonical where
  title : Option String := none
  artist : Option String := none
  label : Option String := none
  catalog_number : Option String := none
  year : Option String := none
  country : Option String := none
  format : List String := []
  genre : List String := []
  cover_url : Option String := none
  upc : Option String := none
  deriving Repr, DecidableEq

/-- The identifier map `out.ids`. -/
structure Ids where
  discogs_release_id : Option IdRef := none
  discogs_master_id : Option IdRef := none
  mb_release_mbid : Option IdRef := none
  mb_release_group : Option IdRef := none
  mb_artist_id : Option IdRef := none
  wikidata_qid : Option IdRef := none
  artist_wikidata_qid : Option IdRef := none
  wikipedia_title : Option IdRef := none
  deriving Repr, DecidableEq

/-- Truthiness of `ref?.id` for an identifier reference. -/
def idTruthy : Option IdRef → Bool
  | none => false
  | some r => r.id ≠ ""

/-- One tracklist row `{no, title}` (part_002 line 743). -/
structure TLRow where
  no : String
  title : String
  deriving Repr, DecidableEq

/-- An opaque infobox extract, stored verbatim when structurally present. -/
structure Infobox where
  kv : List (String × String) := []
  deriving Repr, DecidableEq

/-- The `out.wikipedia` sub-document; only the fields the worker actually
writes are modelled, and each is `none` until its extractor found data
(absent field, not an empty collection). -/
structure WikipediaDoc where
  title : Option String := none
  summary : Option String := none
  infobox : Option Infobox := none
  tracklist : Option (List TLRow) := none
  personnel : Option (List String) := none
  awards : Option (List String) := none
  certifications : Option (List String) := none
  landmarks : Option (List String) := none
  deriving Repr, DecidableEq

/-- Structured image credit (part_002 lines 712-719). -/
structure ImageCredit where
  license : String
  artist : String
  caption : String
  deriving Repr, DecidableEq

/-- One gallery entry as pushed into `out.wiki.*_gallery`. -/
structure GalleryItem where
  source : String
  role : String
  title : String
  url : String
  width : Option Nat := none
  height : Option Nat := none
  mime : Option String := none
  credit : Option ImageCredit := none
  deriving Repr, DecidableEq

/-- The `out.wiki` galleries. -/
structure WikiGalleries where
  article_gallery : List GalleryItem := []
  album_gallery : List GalleryItem := []
  artist_gallery : List GalleryItem := []
  deriving Repr, DecidableEq

/-- The diagnostics block (part_002 lines 117-125). -/
structure Diagnostics where
  matched_on : Option String := none
  notes : List String := []
  tried_barcodes : List String := []
  mb_http : List HttpEntry := []
  discogs_http : List HttpEntry := []
  wiki_http : List HttpEntry := []
  wd_http : List HttpEntry := []
  deriving Repr, DecidableEq

/-- The output envelope built by `initOut` (timestamps and the constant
schema version are not modelled).  `personnel` is the vestigial top-level
array initialised at part_002 line 116 and never written. -/
structure Out where
  flags : Flags
  canonical : Canonical := {}
  ids : Ids := {}
  wikipedia : WikipediaDoc := {}
  wiki : WikiGalleries := {}
  download_image_urls : List String := []
  personnel : List String := []
  diagnostics : Diagnostics := {}
  deriving Repr, DecidableEq

/-- Embedding of `initOut(flags)` (part_002 lines 102-127). -/
def initOut (flags : Flags) : Out := { flags := flags }

/-- Embedding of `normalizeSeed(seed, out)` (part_002 lines 215-223): the
barcode is canonicalized in place, every canonical barcode is recorded in
`diagnostics.tried_barcodes`, and a 12-digit barcode additionally records
its zero-left-padded 13-digit variant. -/
def normalizeSeed (seed : Seed) (out : Out) : Seed × Out :=
  let seed' := { seed with upc := normalizeBarcode seed.upc }
  let d := out.diagnostics
  let d :=
    if strTruthy seed'.upc then { d with tried_barcodes := d.tried_barcodes ++ [getStr seed'.upc] }
    else d
  let d :=
    if strTruthy seed'.upc ∧ (getStr seed'.upc).data.length = 12 then
      { d with tried_barcodes := d.tried_barcodes ++ [padStartZero ("0" ++ getStr seed'.upc) 13] }
    else d
  (seed', { out with diagnostics := d })

/-! ## Provider response shapes

Each structure carries exactly the JSON fields the worker reads; optional /
possibly-falsy JSON values are `Option` fields (with `none` also standing
for `0` on the numeric Discogs ids, whose truthiness test fails there). -/

/-- One Discogs search hit (fields read at part_002 lines 268-298).
`id`, `master_id` and `year` are numbers in the JSON; a falsy (absent or
zero) number is `none`. -/
structure DiscogsHit where
  id : Option Nat := none
  master_id : Option Nat := none
  country : Option String := none
  label : Option String := none
  genre : List String := []
  style : List String := []
  title : Option String := none
  year : Option Nat := none
  thumb : Option String := none
  deriving Repr, DecidableEq

/-- The Discogs `/database/search` response body. -/
structure DiscogsData where
  results : List DiscogsHit := []
  deriving Repr, DecidableEq

/-- A release stub from a MusicBrainz search result list: only `.id` is read. -/
structure MBStub where
  id : String
  deriving Repr, DecidableEq

/-- A MusicBrainz `/release/` search response body. -/
structure MBSearch where
  releases : List MBStub := []
  deriving Repr, DecidableEq

/-- `artist-credit[i].artist` — only `.id` is read. -/
structure MBArtistRef where
  id : String := ""
  deriving Repr, DecidableEq

/-- One MusicBrainz artist credit. -/
structure MBArtistCredit where
  name : String := ""
  artist : Option MBArtistRef := none
  deriving Repr, DecidableEq

/-- `label-info[0].label`. -/
structure MBLabel where
  name : Option String := none
  deriving Repr, DecidableEq

/-- One `label-info` entry. -/
structure MBLabelInfo where
  label : Option MBLabel := none
  catalog_number : Option String := none
  deriving Repr, DecidableEq

/-- One tag. -/
structure MBTag where
  name : String := ""
  deriving Repr, DecidableEq

/-- `relations[i].url`. -/
structure MBRelUrl where
  resource : Option String := none
  deriving Repr, DecidableEq

/-- One outbound URL relation. -/
structure MBRelation where
  url : Option MBRelUrl := none
  deriving Repr, DecidableEq

/-- `release-group` — only `.id` is read. -/
structure MBReleaseGroup where
  id : String := ""
  deriving Repr, DecidableEq

/-- A hydrated MusicBrainz release (fields read at part_002 lines 345-420). -/
structure MBRelease where
  id : String := ""
  title : Option String := none
  artistCredit : List MBArtistCredit := []
  country : Option String := none
  date : Option String := none
  labelInfo : List MBLabelInfo := []
  tags : List MBTag := []
  relations : List MBRelation := []
  releaseGroup : Option MBReleaseGroup := none
  deriving Repr, DecidableEq

/-- A SPARQL response: `json?.results?.bindings?.[0]?.item?.value`. -/
structure SparqlResult where
  binding : Option String := none
  deriving Repr, DecidableEq

/-- A Wikidata entity: the fields the worker reads.  `claimsP175` holds, per
P175 snak, the `mainsnak.datavalue.value.id` when the value is an object
with an `id` (else `none`); `claimsP18` the `mainsnak.datavalue.value` file
name per P18 snak; `enwikiTitle` is `sitelinks.enwiki.title`. -/
structure WDEntity where
  claimsP175 : List (Option String) := []
  claimsP18 : List (Option String) := []
  enwikiTitle : Option String := none
  deriving Repr, DecidableEq

/-- A `Special:EntityData` body: `data?.entities?.[qid]`. -/
structure WDDoc where
  entity : Option WDEntity := none
  deriving Repr, DecidableEq

/-- A Wikipedia REST summary body. -/
structure WPSummary where
  title : Option String := none
  extract : Option String := none
  thumbnailSource : Option String := none
  deriving Repr, DecidableEq

/-- One `srcset` entry of a media-list item. -/
structure SrcEntry where
  src : Option String := none
  deriving Repr, DecidableEq

/-- One media-list item. -/
structure MediaItem where
  title : Option String := none
  srcset : Option (List SrcEntry) := none
  deriving Repr, DecidableEq

/-- A media-list body; `items` is `none` when `mediaList?.items` is not an
array. -/
structure MediaList where
  items : Option (List MediaItem) := none
  deriving Repr, DecidableEq

/-- One `wikitable`-classed table of the rendered article, pre-tokenized:
`raw` is the raw table markup (keyword tests run on it) and `rows` the list
of `<tr>` rows, each a list of raw `<td>/<th>` cell contents. -/
structure TLTable where
  raw : String := ""
  rows : List (List String) := []
  deriving Repr, DecidableEq

/-- One `<h2>`-delimited section of the rendered article: `raw` is the raw
section markup (heading keyword tests run on it) and `items` the raw inner
HTML of its `<li>` elements, in order. -/
structure HtmlSection where
  raw : String := ""
  items : List String := []
  deriving Repr, DecidableEq

/-- The rendered article HTML, pre-tokenized into what the five regex
extractors scan: the `wikitable` tables, the `<h2>` sections, and the
tag-stripped full text. -/
structure WikiHtmlDoc where
  tables : List TLTable := []
  sections : List HtmlSection := []
  strippedText : String := ""
  deriving Repr, DecidableEq

/-- Commons `imageinfo` metadata for one file, with the raw (HTML-bearing)
extmetadata values; `none` models an absent page / imageinfo entry. -/
structure CommonsInfoRaw where
  url : Option String := none
  width : Option Nat := none
  height : Option Nat := none
  mime : Option String := none
  licenseShortName : Option String := none
  license : Option String := none
  artistHtml : Option String := none
  creditHtml : Option String := none
  attributionRequired : Option String := none
  imageDescription : Option String := none
  title : Option String := none
  deriving Repr, DecidableEq

/-- A Commons API body: `j?.query?.pages` first page with `imageinfo[0]`. -/
structure CommonsDoc where
  info : Option CommonsInfoRaw := none
  deriving Repr, DecidableEq

/-- The network oracle: for every outbound request the worker can issue,
the attempt(s) the network would answer with (`GETjson`-based calls consume
up to two attempts: the initial one and the 429 retry). -/
structure Oracle where
  discogsSearch : String → HttpAttempt DiscogsData × HttpAttempt DiscogsData
  mbBarcode : String → HttpAttempt MBSearch × HttpAttempt MBSearch
  mbText : String → String → HttpAttempt MBSearch × HttpAttempt MBSearch
  mbRelease : String → HttpAttempt MBRelease
  mbRGWarm : String → HttpAttempt Unit × HttpAttempt Unit
  mbArtistWarm : String → HttpAttempt Unit × HttpAttempt Unit
  sparqlRG : String → HttpAttempt SparqlResult
  sparqlTitleArtist : String → String → HttpAttempt SparqlResult
  sparqlArtist : String → HttpAttempt SparqlResult
  wdEntity : String → HttpAttempt WDDoc × HttpAttempt WDDoc
  wpSummary : String → HttpAttempt WPSummary × HttpAttempt WPSummary
  wpInfobox : String → HttpAttempt Infobox × HttpAttempt Infobox
  wpMediaList : String → HttpAttempt MediaList × HttpAttempt MediaList
  wpHtml : String → HttpAttempt WikiHtmlDoc
  commons : String → HttpAttempt CommonsDoc

/-! ## Discogs resolver (part_002 lines 249-299) -/

/-- Line 282: `if (hit.country) out.canonical.country = hit.country`. -/
def discogsCountry (hit : DiscogsHit) (c : Canonical) : Canonical :=
  if strTruthy hit.country then { c with country := hit.country } else c

/-- Line 283: fill the label only when still empty. -/
def discogsLabel (hit : DiscogsHit) (c : Canonical) : Canonical :=
  if strTruthy hit.label ∧ ¬ strTruthy c.label then { c with label := hit.label } else c

/-- Line 284: union the genre tags into the genre set. -/
def discogsGenre (hit : DiscogsHit) (c : Canonical) : Canonical :=
  if hit.genre ≠ [] then { c with genre := dedupe (c.genre ++ hit.genre) } else c

/-- Line 285: union the style tags into the genre set. -/
def discogsStyle (hit : DiscogsHit) (c : Canonical) : Canonical :=
  if hit.style ≠ [] then { c with genre := dedupe (c.genre ++ hit.style) } else c

/-- Lines 286-295: the title block, splitting `"Artist – Title"` on the
en-dash separator when it yields exactly two parts. -/
def discogsTitleArtist (hit : DiscogsHit) (c : Canonical) : Canonical :=
  if strTruthy hit.title ∧ ¬ strTruthy c.title then
    match (getStr hit.title).splitOn " – " with
    | [a, t] => { c with artist := jsOr c.artist (some a), title := jsOr c.title (some t) }
    | _ => { c with title := jsOr c.title hit.title }
  else c

/-- Line 296: fill the (stringified) year only when still empty. -/
def discogsYear (hit : DiscogsHit) (c : Canonical) : Canonical :=
  if hit.year.getD 0 ≠ 0 ∧ ¬ strTruthy c.year then
    { c with year := some (toString (hit.year.getD 0)) }
  else c

/-- Line 297: fill the cover URL from the thumb only when still empty. -/
def discogsThumb (hit : DiscogsHit) (c : Canonical) : Canonical :=
  if strTruthy hit.thumb ∧ ¬ strTruthy c.cover_url then { c with cover_url := hit.thumb }
  else c

/-- The canonical-field contributions of a Discogs hit
(part_002 lines 281-298), in source order, ending with the barcode stamp. -/
def discogsFillCanonical (upc : String) (hit : DiscogsHit) (c : Canonical) : Canonical :=
  { discogsThumb hit
      (discogsYear hit
        (discogsTitleArtist hit
          (discogsStyle hit (discogsGenre hit (discogsLabel hit (discogsCountry hit c))))))
    with upc := some upc }

/-- The identifier contributions of a Discogs hit (part_002 lines 270-279).
Note the release id is assigned unconditionally: a falsy `hit.id` stores
`undefined`. -/
def discogsApplyIds (hit : DiscogsHit) (ids : Ids) : Ids :=
  let ids :=
    { ids with
      discogs_release_id :=
        if hit.id.getD 0 ≠ 0 then
          some ⟨toString (hit.id.getD 0),
            "https://www.discogs.com/release/" ++ toString (hit.id.getD 0)⟩
        else none }
  if hit.master_id.getD 0 ≠ 0 then
    { ids with
      discogs_master_id :=
        some ⟨toString (hit.master_id.getD 0),
          "https://www.discogs.com/master/" ++ toString (hit.master_id.getD 0)⟩ }
  else ids

/-- Embedding of `resolveDiscogsByUPC(seed, out)` (part_002 lines 249-299). -/
def resolveDiscogsByUPC (o : Oracle) (seed : Seed) (s : Out) : Out :=
  if ¬ strTruthy seed.upc then s
  else
    let upc := getStr seed.upc
    let atts := o.discogsSearch upc
    let g := GETjson "/database/search"
      ("type=release&barcode=" ++ upc ++ "&per_page=1&page=1") atts.1 atts.2
    let s := { s with
      diagnostics := { s.diagnostics with
        discogs_http := s.diagnostics.discogs_http ++ g.entries } }
    match g.result with
    | none =>
      { s with diagnostics := { s.diagnostics with
          notes := s.diagnostics.notes ++ ["discogs query failed or rate-limited"] } }
    | some data =>
      match data.results.head? with
      | none => s
      | some hit =>
        { s with
          ids := discogsApplyIds hit s.ids
          canonical := discogsFillCanonical upc hit s.canonical }

/-! ## MusicBrainz resolver (part_002 lines 303-440) -/

/-- Embedding of `hydrateMBRelease(id, out)` (part_002 lines 423-440): a
direct fetch of the release with inclusions; the status is logged to
`mb_http`, a non-2xx status adds a soft-failure note and yields `null`. -/
def hydrateMBRelease (o : Oracle) (id : String) (s : Out) : Option MBRelease × Out :=
  let att := o.mbRelease id
  let s := { s with diagnostics := { s.diagnostics with
    mb_http := s.diagnostics.mb_http ++ [⟨"/release/" ++ id, att.status⟩] } }
  if isOkStatus att.status then (some att.body, s)
  else
    (none,
      { s with diagnostics := { s.diagnostics with
          notes := s.diagnostics.notes ++
            ["musicbrainz release detail failed with status " ++ toString att.status] } })

/-- One barcode search call of strategy 3a (part_002 lines 311-312). -/
def mbBarcodeSearch (o : Oracle) (bc : String) : GetOutcome MBSearch :=
  let atts := o.mbBarcode bc
  GETjson "/release/" ("query=barcode:" ++ bc ++ "&fmt=json") atts.1 atts.2

/-- The candidate list strategy 3a iterates over (part_002 line 309):
`dedupe(out.diagnostics.tried_barcodes.filter(Boolean))`. -/
def mbBarcodeCandidates (tried : List String) : List String :=
  dedupe (tried.filter (fun s => s ≠ ""))

/-- The strategy-3a loop (part_002 lines 310-319): search each barcode in
order; the first non-empty result list wins, sets `matched_on = "upc"` and
stops.  Returns the winning stub id, if any. -/
def mbBarcodeLoop (o : Oracle) : List String → Out → Option String × Out
  | [], s => (none, s)
  | bc :: rest, s =>
    let g := mbBarcodeSearch o bc
    let s := { s with diagnostics := { s.diagnostics with
      mb_http := s.diagnostics.mb_http ++ g.entries } }
    match g.result with
    | some search =>
      match search.releases.head? with
      | some stub =>
        (some stub.id,
          { s with diagnostics := { s.diagnostics with matched_on := some "upc" } })
      | none => mbBarcodeLoop o rest s
    | none => mbBarcodeLoop o rest s

/-- The artist+title fallback search of strategy 3c (part_002 line 334). -/
def mbTextSearch (o : Oracle) (title artist : String) : GetOutcome MBSearch :=
  let atts := o.mbText title artist
  GETjson "/release/" ("query=" ++ title ++ " AND artist:" ++ artist ++ "&fmt=json") atts.1 atts.2

/-- Identifier contributions of the hydrated release (part_002 lines
349-365): release id unconditionally, release-group and first credited
artist when resolvable. -/
def mbApplyIds (full : MBRelease) (ids : Ids) : Ids :=
  let ids := { ids with
    mb_release_mbid := some ⟨full.id, "https://musicbrainz.org/release/" ++ full.id⟩ }
  let ids :=
    match full.releaseGroup with
    | some rg =>
      let ref : IdRef := ⟨rg.id, "https://musicbrainz.org/release-group/" ++ rg.id⟩
      { ids with mb_release_group := some ref }
    | none => ids
  match full.artistCredit.head? with
  | some ac =>
    match ac.artist with
    | some a =>
      if a.id ≠ "" then
        { ids with mb_artist_id := some ⟨a.id, "https://musicbrainz.org/artist/" ++ a.id⟩ }
      else ids
    | none => ids
  | none => ids

/-- Line 368: `if (!out.canonical.title) out.canonical.title = full.title || null`. -/
def mbTitle (full : MBRelease) (c : Canonical) : Canonical :=
  if ¬ strTruthy c.title then
    { c with title := if strTruthy full.title then full.title else none }
  else c

/-- Lines 369-371: join the artist-credit names with `" & "` when the
artist is still empty. -/
def mbArtist (full : MBRelease) (c : Canonical) : Canonical :=
  if ¬ strTruthy c.artist ∧ full.artistCredit ≠ [] then
    { c with artist := some (String.intercalate " & " (full.artistCredit.map (·.name))) }
  else c

/-- Line 372: fill the country only when still empty. -/
def mbCountry (full : MBRelease) (c : Canonical) : Canonical :=
  if strTruthy full.country ∧ ¬ strTruthy c.country then { c with country := full.country }
  else c

/-- Line 373: fill the year from `String(full.date).slice(0, 4)`. -/
def mbYear (full : MBRelease) (c : Canonical) : Canonical :=
  if strTruthy full.date ∧ ¬ strTruthy c.year then
    { c with year := some (strTake4 (getStr full.date)) }
  else c

/-- Lines 374-378: label name and catalog number from the first
`label-info` entry, each only when still empty. -/
def mbLabelCatalog (full : MBRelease) (c : Canonical) : Canonical :=
  match full.labelInfo.head? with
  | some li =>
    let c :=
      if strTruthy (li.label.bind (·.name)) ∧ ¬ strTruthy c.label then
        { c with label := li.label.bind (·.name) }
      else c
    if strTruthy li.catalog_number ∧ ¬ strTruthy c.catalog_number then
      { c with catalog_number := li.catalog_number }
    else c
  | none => c

/-- Lines 380-383: union the title-cased tag names into the genre set. -/
def mbGenre (full : MBRelease) (c : Canonical) : Canonical :=
  if full.tags ≠ [] then
    { c with genre := dedupe (c.genre ++ full.tags.map (fun t => titleCase t.name)) }
  else c

/-- Canonical-field contributions of the hydrated release (part_002 lines
367-383), in source order. -/
def mbFillCanonical (full : MBRelease) (c : Canonical) : Canonical :=
  mbGenre full (mbLabelCatalog full (mbYear full (mbCountry full (mbArtist full (mbTitle full c)))))

/-- One step of the url-relations scan (part_002 lines 387-406): adopt the
first embedded Discogs-release / Wikidata / enwiki link of each kind, only
when the corresponding identifier is still unset. -/
def mbRelationStep (ids : Ids) (rel : MBRelation) : Ids :=
  match rel.url with
  | none => ids
  | some ru =>
    if ¬ strTruthy ru.resource then ids
    else
      let u := getStr ru.resource
      let ids :=
        if strIncludes u "discogs.com/release/" ∧ ids.discogs_release_id = none then
          match (jsSplitAt1 u "/release/").map takeUntilQueryHash with
          | some i =>
            if i ≠ "" then
              let ref : IdRef := ⟨i, "https://www.discogs.com/release/" ++ i⟩
              { ids with discogs_release_id := some ref }
            else ids
          | none => ids
        else ids
      let ids :=
        if strIncludes u "wikidata.org/wiki/Q" then
          match (jsSplitAt1 u "/wiki/").map takeUntilQueryHash with
          | some q =>
            if q ≠ "" ∧ ids.wikidata_qid = none then
              { ids with wikidata_qid := some ⟨q, "https://www.wikidata.org/wiki/" ++ q⟩ }
            else ids
          | none => ids
        else ids
      if strIncludes u "en.wikipedia.org/wiki/" ∧ ids.wikipedia_title = none then
        -- decodeURIComponent is modelled as the identity; a missing split
        -- member would coerce to the string "undefined" in JS.
        let t := (jsSplitAt1 u "/wiki/").getD "undefined"
        { ids with wikipedia_title := some ⟨t, "https://en.wikipedia.org/wiki/" ++ t⟩ }
      else ids

/-- The cache-warming hydrations of release-group and artist (part_002
lines 409-420): the calls are logged, their bodies discarded. -/
def mbWarm (o : Oracle) (s : Out) : Out :=
  let s :=
    if idTruthy s.ids.mb_release_group then
      let rid := (s.ids.mb_release_group.map (·.id)).getD ""
      let atts := o.mbRGWarm rid
      let g := GETjson ("/release-group/" ++ rid) "fmt=json" atts.1 atts.2
      { s with diagnostics := { s.diagnostics with
          mb_http := s.diagnostics.mb_http ++ g.entries } }
    else s
  if idTruthy s.ids.mb_artist_id then
    let aid := (s.ids.mb_artist_id.map (·.id)).getD ""
    let atts := o.mbArtistWarm aid
    let g := GETjson ("/artist/" ++ aid) "fmt=json" atts.1 atts.2
    { s with diagnostics := { s.diagnostics with
        mb_http := s.diagnostics.mb_http ++ g.entries } }
  else s

/-- Strategy 3a (part_002 lines 307-320): barcode search over the tried
candidates, only when a barcode is present. -/
def mbPhase3a (o : Oracle) (seed : Seed) (s : Out) : Option String × Out :=
  if strTruthy seed.upc then
    mbBarcodeLoop o (mbBarcodeCandidates s.diagnostics.tried_barcodes) s
  else (none, s)

/-- Strategy 3b, first half (part_002 lines 323-325): hydrate `seed.mbid`
directly when no candidate was found yet; the candidate id is the hydrated
release's own id. -/
def mbPhase3bMbid (o : Oracle) (seed : Seed) : Option String × Out → Option String × Out
  | (some i, s) => (some i, s)
  | (none, s) =>
    if strTruthy seed.mbid then
      match hydrateMBRelease o (getStr seed.mbid) s with
      | (some full, s2) => (some full.id, s2)
      | (none, s2) => (none, s2)
    else (none, s)

/-- Strategy 3b, second half (part_002 lines 326-328): same for
`seed.mb_release_mbid`. -/
def mbPhase3bRel (o : Oracle) (seed : Seed) : Option String × Out → Option String × Out
  | (some i, s) => (some i, s)
  | (none, s) =>
    if strTruthy seed.mb_release_mbid then
      match hydrateMBRelease o (getStr seed.mb_release_mbid) s with
      | (some full, s2) => (some full.id, s2)
      | (none, s2) => (none, s2)
    else (none, s)

/-- Strategy 3c (part_002 lines 331-340): artist+title full-text fallback,
tagging `matched_on = "artist+title"` on success. -/
def mbPhase3c (o : Oracle) (seed : Seed) : Option String × Out → Option String × Out
  | (some i, s) => (some i, s)
  | (none, s) =>
    let artist := jsOr seed.artist s.canonical.artist
    let title := jsOr seed.title s.canonical.title
    if strTruthy artist ∧ strTruthy title then
      let g := mbTextSearch o (getStr title) (getStr artist)
      let s4 := { s with diagnostics := { s.diagnostics with
        mb_http := s.diagnostics.mb_http ++ g.entries } }
      match g.result with
      | some search =>
        match search.releases.head? with
        | some stub =>
          (some stub.id,
            { s4 with diagnostics :=
              { s4.diagnostics with matched_on := some "artist+title" } })
        | none => (none, s4)
      | none => (none, s4)
    else (none, s)

/-- The candidate-finding phase of `resolveMusicBrainz`: strategies 3a, 3b
and 3c in order, first success wins. -/
def mbFindCandidate (o : Oracle) (seed : Seed) (s : Out) : Option String × Out :=
  mbPhase3c o seed (mbPhase3bRel o seed (mbPhase3bMbid o seed (mbPhase3a o seed s)))

/-- Application of the re-hydrated release (part_002 lines 344-420): set
ids, fill canonical fields, harvest url relations, warm caches. -/
def mbApplyFull (o : Oracle) (relId : String) (s : Out) : Out :=
  match hydrateMBRelease o relId s with
  | (none, s5) => s5
  | (some full, s5) =>
    let s6 := { s5 with ids := mbApplyIds full s5.ids }
    let s7 := { s6 with canonical := mbFillCanonical full s6.canonical }
    let s8 := { s7 with ids := full.relations.foldl mbRelationStep s7.ids }
    mbWarm o s8

/-- Embedding of `resolveMusicBrainz(seed, out)` (part_002 lines 303-421).
The candidate is carried as the release id to re-hydrate (`mbRel.id`). -/
def resolveMusicBrainz (o : Oracle) (seed : Seed) (s : Out) : Out :=
  match mbFindCandidate o seed s with
  | (none, s4) => s4
  | (some relId, s4) => mbApplyFull o relId s4

/-! ## Wikidata + Wikipedia resolution (part_002 lines 444-584) -/

/-- Embedding of `fetchWikidataEntity(qid, out)` (part_002 lines 497-500):
a `GETjson` of `Special:EntityData/<qid>.json`, yielding
`data?.entities?.[qid]`. -/
def fetchWikidataEntity (o : Oracle) (qid : String) (s : Out) : Option WDEntity × Out :=
  let atts := o.wdEntity qid
  let g := GETjson ("/" ++ qid ++ ".json") "" atts.1 atts.2
  let s := { s with diagnostics := { s.diagnostics with
    wd_http := s.diagnostics.wd_http ++ g.entries } }
  (g.result.bind (·.entity), s)

/-- Embedding of `pickClaimId(entity, prop)` (part_002 lines 502-510) for
the pre-extracted claim list: the first snak value that is an object with a
truthy `id`. -/
def pickClaimId (claims : List (Option String)) : Option String :=
  claims.findSome? (fun v =>
    match v with
    | some i => if i ≠ "" then some i else none
    | none => none)

/-- Shared tail of the three SPARQL helpers (part_002 lines 512-584): log
the call, and on a 2xx status with a truthy first binding return
`binding.split("/").pop()`. -/
def sparqlCall (att : HttpAttempt SparqlResult) (tag : String) (s : Out) :
    Option String × Out :=
  let s := { s with diagnostics := { s.diagnostics with
    wd_http := s.diagnostics.wd_http ++ [⟨tag, att.status⟩] } }
  if isOkStatus att.status then
    match att.body.binding with
    | some b => if b = "" then (none, s) else (some (jsSplitPop b), s)
    | none => (none, s)
  else (none, s)

/-- Album Q-id via SPARQL on the MusicBrainz release-group id
(part_002 lines 451-457). -/
def wdAlbumQidByRG (o : Oracle) (s : Out) : Out :=
  if idTruthy s.ids.mb_release_group then
    let rid := (s.ids.mb_release_group.map (·.id)).getD ""
    let r := sparqlCall (o.sparqlRG rid) "SPARQL:MBRG->Q" s
    match r.1 with
    | some q =>
      if q ≠ "" then
        let ref : IdRef := ⟨q, "https://www.wikidata.org/wiki/" ++ q⟩
        { r.2 with ids := { r.2.ids with wikidata_qid := some ref } }
      else r.2
    | none => r.2
  else s

/-- Album Q-id fallback via SPARQL on exact title+artist labels
(part_002 lines 459-464). -/
def wdAlbumQidByTitle (o : Oracle) (s : Out) : Out :=
  if s.ids.wikidata_qid = none ∧ strTruthy s.canonical.title ∧
      strTruthy s.canonical.artist then
    let r := sparqlCall
      (o.sparqlTitleArtist (getStr s.canonical.title) (getStr s.canonical.artist))
      "SPARQL:title+artist->Q" s
    match r.1 with
    | some q =>
      if q ≠ "" then
        let ref : IdRef := ⟨q, "https://www.wikidata.org/wiki/" ++ q⟩
        { r.2 with ids := { r.2.ids with wikidata_qid := some ref } }
      else r.2
    | none => r.2
  else s

/-- Album Q-id resolution (part_002 lines 450-465). -/
def wdAlbumQid (o : Oracle) (s : Out) : Out :=
  if s.ids.wikidata_qid.isSome then s
  else wdAlbumQidByTitle o (wdAlbumQidByRG o s)

/-- Artist Q-id via SPARQL on the MusicBrainz artist id
(part_002 lines 470-475). -/
def wdArtistQidByMB (o : Oracle) (s : Out) : Out :=
  if idTruthy s.ids.mb_artist_id then
    let aid := (s.ids.mb_artist_id.map (·.id)).getD ""
    let r := sparqlCall (o.sparqlArtist aid) "SPARQL:MBArtist->Q" s
    match r.1 with
    | some q =>
      if q ≠ "" then
        let ref : IdRef := ⟨q, "https://www.wikidata.org/wiki/" ++ q⟩
        { r.2 with ids := { r.2.ids with artist_wikidata_qid := some ref } }
      else r.2
    | none => r.2
  else s

/-- Artist Q-id fallback via the album entity's P175 performer claim
(part_002 lines 477-483). -/
def wdArtistQidByP175 (o : Oracle) (s : Out) : Out :=
  if s.ids.artist_wikidata_qid = none ∧ idTruthy s.ids.wikidata_qid then
    let qid := (s.ids.wikidata_qid.map (·.id)).getD ""
    let r := fetchWikidataEntity o qid s
    match (r.1.map (·.claimsP175)).bind pickClaimId with
    | some performer =>
      let ref : IdRef := ⟨performer, "https://www.wikidata.org/wiki/" ++ performer⟩
      { r.2 with ids := { r.2.ids with artist_wikidata_qid := some ref } }
    | none => r.2
  else s

/-- Artist Q-id resolution (part_002 lines 468-484). -/
def wdArtistQid (o : Oracle) (s : Out) : Out :=
  if s.ids.artist_wikidata_qid.isSome then s
  else wdArtistQidByP175 o (wdArtistQidByMB o s)

/-- The enwiki sitelink block (part_002 lines 487-494). -/
def wdSitelink (o : Oracle) (s : Out) : Out :=
  if s.ids.wikipedia_title = none then
    if idTruthy s.ids.wikidata_qid then
      let qid := (s.ids.wikidata_qid.map (·.id)).getD ""
      let r := fetchWikidataEntity o qid s
      match r.1.bind (·.enwikiTitle) with
      | some t =>
        if t ≠ "" then
          -- encodeURIComponent is modelled as the identity.
          let ref : IdRef := ⟨t, "https://en.wikipedia.org/wiki/" ++ t⟩
          { r.2 with ids := { r.2.ids with wikipedia_title := some ref } }
        else r.2
      | none => r.2
    else s
  else s

/-- Embedding of `resolveWikidataAndWikipedia(seed, out)` (part_002 lines
444-495).  The seed is never read by this stage. -/
def resolveWikidataAndWikipedia (o : Oracle) (_seed : Seed) (s : Out) : Out :=
  if s.ids.wikidata_qid.isSome ∧ s.ids.artist_wikidata_qid.isSome ∧
      s.ids.wikipedia_title.isSome then s
  else wdSitelink o (wdArtistQid o (wdAlbumQid o s))

/-! ## Wikipedia HTML extraction (part_002 lines 733-808) -/

/-- The table gate of the tracklist extractor (part_002 line 738):
`/Track listing|Track\s*list/i.test(tb) || /Track\s*No\.?/i.test(tb)`
(the `Track listing` alternative is subsumed by `Track\s*list`; the
optional dot adds nothing to a bare existence test). -/
def isTrackTable (raw : String) : Bool :=
  matchGapStar "track".data "list".data raw.data
    || matchGapStar "track".data "no".data raw.data

/-- One row of a matching table (part_002 lines 741-745): cells are
tag-stripped and trimmed; the row is captured when it has at least two
cells and its first cell starts with a digit (`/^\d+/`). -/
def captureRow (cells : List String) : Option TLRow :=
  let cols := cells.map (fun c => trimWs (stripHtml c))
  match cols with
  | c0 :: c1 :: _ => if startsWithDigit c0 then some ⟨c0, c1⟩ else none
  | _ => none

/-- Embedding of the row-collection loop of `extractTracklistFromHTML`
(part_002 lines 735-746), over the pre-tokenized `wikitable` tables. -/
def extractTracklistRows (tables : List TLTable) : List TLRow :=
  tables.foldl
    (fun acc tb =>
      if isTrackTable tb.raw then acc ++ tb.rows.filterMap captureRow else acc)
    []

/-- Embedding of `extractTracklistFromHTML` (part_002 lines 733-748): the
field is set only when at least one row was captured. -/
def extractTracklistFromHTML (doc : WikiHtmlDoc) (s : Out) : Out :=
  let rows := extractTracklistRows doc.tables
  if rows ≠ [] then { s with wikipedia := { s.wikipedia with tracklist := some rows } }
  else s

/-- The list-item lines of the sections whose raw markup matches the given
keyword test, each item post-processed by `f` with falsy lines dropped
(part_002 lines 752-761 and 765-790 share this shape). -/
def sectionLines (keep : String → Bool) (f : String → String) (sections : List HtmlSection) :
    List String :=
  sections.foldl
    (fun acc sec =>
      if keep sec.raw then
        acc ++ (sec.items.map f).filter (fun line => line ≠ "")
      else acc)
    []

/-- Embedding of `extractPersonnelFromHTML` (part_002 lines 750-763):
sections headed Personnel/Credits; each `<li>` is tag-stripped, whitespace
collapsed and trimmed. -/
def extractPersonnelFromHTML (doc : WikiHtmlDoc) (s : Out) : Out :=
  let found := sectionLines
    (fun raw => strContainsCI raw "personnel" || strContainsCI raw "credits")
    (fun li => trimWs (collapseWs (stripHtml li)))
    doc.sections
  if found ≠ [] then { s with wikipedia := { s.wikipedia with personnel := some found } }
  else s

/-- Embedding of `extractAwardsFromHTML` (part_002 lines 765-777). -/
def extractAwardsFromHTML (doc : WikiHtmlDoc) (s : Out) : Out :=
  let aw := sectionLines
    (fun raw => strContainsCI raw "awards" || strContainsCI raw "accolades")
    (fun li => trimWs (stripHtml li))
    doc.sections
  if aw ≠ [] then { s with wikipedia := { s.wikipedia with awards := some aw } }
  else s

/-- Embedding of `extractCertificationsFromHTML` (part_002 lines 779-791). -/
def extractCertificationsFromHTML (doc : WikiHtmlDoc) (s : Out) : Out :=
  let cf := sectionLines
    (fun raw => strContainsCI raw "certifications")
    (fun li => trimWs (stripHtml li))
    doc.sections
  if cf ≠ [] then { s with wikipedia := { s.wikipedia with certifications := some cf } }
  else s

/-- The landmark phrase scan (part_002 lines 793-808) over the collapsed,
tag-stripped article text: the first match of each fixed pattern, deduped. -/
def landmarkHits (text : List Char) : List String :=
  let m1 := findCI "grammy hall of fame".data text
  let m2 := findCI "national recording registry".data text
  let m3 := findGapPlusCI "riaa".data "certified".data text
  let m4 := findCI "most influential".data text
  let m5 := findCI "landmark album".data text
  let hits := [m1, m2, m3, m4, m5].filterMap (fun m => m.map String.mk)
  dedupe hits

/-- Embedding of `extractLandmarksFromHTML` (part_002 lines 793-808). -/
def extractLandmarksFromHTML (doc : WikiHtmlDoc) (s : Out) : Out :=
  let hits := landmarkHits (collapseWs doc.strippedText).data
  if hits ≠ [] then { s with wikipedia := { s.wikipedia with landmarks := some hits } }
  else s

/-- Embedding of `pickLargestSrc(srcset)` (part_002 lines 636-643): the
last variant; protocol-relative URLs are prefixed with `https:`. -/
def pickLargestSrc (srcset : List SrcEntry) : Option String :=
  match srcset.getLast? with
  | none => none
  | some cand =>
    match cand.src with
    | none => none
    | some src =>
      if src = "" then none
      else some (if strStartsWith src "//" then "https:" ++ src else src)

/-- The media-list loop (part_002 lines 608-621). -/
def articleGalleryItems (items : List MediaItem) : List GalleryItem :=
  items.foldl
    (fun acc it =>
      if strTruthy it.title ∧ it.srcset.isSome then
        match pickLargestSrc (it.srcset.getD []) with
        | some best =>
          if best ≠ "" then
            acc ++ [{ source := "enwiki:media-list", role := "gallery",
                      title := getStr it.title, url := best }]
          else acc
        | none => acc
      else acc)
    []

/-- Embedding of `enrichFromWikipedia(seed, out)` (part_002 lines 588-634).
The seed is never read by this stage. -/
def enrichFromWikipedia (o : Oracle) (_seed : Seed) (s : Out) : Out :=
  if ¬ idTruthy s.ids.wikipedia_title then s
  else
    let title := (s.ids.wikipedia_title.map (·.id)).getD ""
    -- summary
    let atts1 := o.wpSummary title
    let g1 := GETjson ("/summary/" ++ title) "" atts1.1 atts1.2
    let s := { s with diagnostics := { s.diagnostics with
      wiki_http := s.diagnostics.wiki_http ++ g1.entries } }
    let s :=
      match g1.result with
      | some sum =>
        if strTruthy sum.title then
          let s := { s with wikipedia := { s.wikipedia with
            title := sum.title, summary := some (getStr sum.extract) } }
          if strTruthy sum.thumbnailSource ∧ ¬ strTruthy s.canonical.cover_url then
            { s with canonical := { s.canonical with cover_url := sum.thumbnailSource } }
          else s
        else s
      | none => s
    -- infobox
    let atts2 := o.wpInfobox title
    let g2 := GETjson ("/infobox/" ++ title) "" atts2.1 atts2.2
    let s := { s with diagnostics := { s.diagnostics with
      wiki_http := s.diagnostics.wiki_http ++ g2.entries } }
    let s :=
      match g2.result with
      | some info => { s with wikipedia := { s.wikipedia with infobox := some info } }
      | none => s
    -- media-list
    let atts3 := o.wpMediaList title
    let g3 := GETjson ("/media-list/" ++ title) "" atts3.1 atts3.2
    let s := { s with diagnostics := { s.diagnostics with
      wiki_http := s.diagnostics.wiki_http ++ g3.entries } }
    let s :=
      match g3.result.bind (·.items) with
      | some items =>
        { s with wiki := { s.wiki with
            article_gallery := s.wiki.article_gallery ++ articleGalleryItems items } }
      | none => s
    -- rendered HTML + the five extractors
    let att4 := o.wpHtml title
    let s := { s with diagnostics := { s.diagnostics with
      wiki_http := s.diagnostics.wiki_http ++ [⟨"/html/" ++ title, att4.status⟩] } }
    if isOkStatus att4.status then
      let doc := att4.body
      let s := extractTracklistFromHTML doc s
      let s := extractPersonnelFromHTML doc s
      let s := extractAwardsFromHTML doc s
      let s := extractLandmarksFromHTML doc s
      extractCertificationsFromHTML doc s
    else s

/-! ## Image galleries (part_002 lines 647-719) -/

/-- Embedding of `commonsImageInfo(filename, out)` (part_002 lines 677-710):
resolve and normalize one file description, stripping markup from the
credit fields. -/
def commonsImageInfo (o : Oracle) (filename : String) (s : Out) :
    Option CommonsInfoRaw × Out :=
  let att := o.commons filename
  let s := { s with diagnostics := { s.diagnostics with
    wiki_http := s.diagnostics.wiki_http ++ [⟨"/commons:imageinfo", att.status⟩] } }
  if isOkStatus att.status then (att.body.info, s) else (none, s)

/-- The normalized fields of `commonsImageInfo`'s return value
(part_002 lines 697-709). -/
structure FileInfo where
  url : Option String
  width : Option Nat
  height : Option Nat
  mime : Option String
  license : String
  artist : String
  credit : String
  attributionRequired : Bool
  creditLine : String
  description : String
  title : String
  deriving Repr, DecidableEq

/-- Build the normalized `FileInfo` from the raw metadata
(part_002 lines 697-709). -/
def mkFileInfo (raw : CommonsInfoRaw) : FileInfo :=
  { url := raw.url
    width := raw.width
    height := raw.height
    mime := raw.mime
    license := getStr (jsOr raw.licenseShortName (jsOr raw.license (some "")))
    artist := if strTruthy raw.artistHtml then stripHtml (getStr raw.artistHtml) else ""
    credit := if strTruthy raw.creditHtml then stripHtml (getStr raw.creditHtml) else ""
    attributionRequired := raw.attributionRequired = some "true"
    creditLine := if strTruthy raw.creditHtml then stripHtml (getStr raw.creditHtml) else ""
    description :=
      if strTruthy raw.imageDescription then stripHtml (getStr raw.imageDescription) else ""
    title := getStr (jsOr raw.title (some "")) }

/-- Embedding of `buildImageCredit(fi)` (part_002 lines 712-719). -/
def buildImageCredit (fi : FileInfo) : ImageCredit :=
  { license := fi.license, artist := fi.artist, caption := fi.description }

/-- One iteration of the P18 file loop (part_002 lines 659-673). -/
def galleryStep (o : Oracle) (acc : Out) (f : String) : Out :=
  let ci := commonsImageInfo o f acc
  match ci.1 with
  | some raw =>
    let fi := mkFileInfo raw
    if strTruthy fi.url then
      { ci.2 with wiki := { ci.2.wiki with
          artist_gallery := ci.2.wiki.artist_gallery ++
            [{ source := "wikidata:P18", role := "image",
               title := "File:" ++ f, url := getStr fi.url,
               width := fi.width, height := fi.height, mime := fi.mime,
               credit := some (buildImageCredit fi) }] } }
    else ci.2
  | none => ci.2

/-- Embedding of `buildImageGalleries(seed, out)` (part_002 lines 647-675):
pull up to `max_images` P18 file names from the artist entity and append a
gallery item per resolvable file.  The seed is never read. -/
def buildImageGalleries (o : Oracle) (_seed : Seed) (s : Out) : Out :=
  if ¬ idTruthy s.ids.artist_wikidata_qid then s
  else
    let qid := (s.ids.artist_wikidata_qid.map (·.id)).getD ""
    let r := fetchWikidataEntity o qid s
    let p18 := (r.1.map (·.claimsP18)).getD []
    let files := p18.filterMap (fun f =>
      match f with
      | some x => if x ≠ "" then some x else none
      | none => none)
    (files.take s.flags.max_images).foldl (galleryStep o) r.2

/-! ## Finalize and download aggregation (part_002 lines 721-729, 812-819) -/

/-- Embedding of `finalizeCanonical(out)` (part_002 lines 812-819):
default the format set to `{"Album"}` when no provider contributed one. -/
def finalizeCanonical (s : Out) : Out :=
  if s.canonical.format = [] then
    { s with canonical := { s.canonical with format := dedupe ["Album"] } }
  else s

/-- The gallery-traversal URL list (part_002 lines 722-727): article, then
album, then artist gallery, keeping each item's truthy `url`. -/
def galleryUrls (w : WikiGalleries) : List String :=
  (w.article_gallery ++ w.album_gallery ++ w.artist_gallery).foldr
    (fun it acc => if it.url ≠ "" then it.url :: acc else acc) []

/-- Embedding of `aggregateDownloadList(out)` (part_002 lines 721-729). -/
def aggregateDownloadList (s : Out) : Out :=
  { s with download_image_urls := dedupe (galleryUrls s.wiki) }

/-- The full pipeline body of the fetch handler (part_002 lines 57-90),
after seed parsing: normalize, conditional Discogs, MusicBrainz, Wikidata,
Wikipedia, conditional galleries, finalize, aggregate.  No step of this
model throws, so the fatal-catch branch is never taken. -/
def runPipeline (o : Oracle) (flags : Flags) (seed0 : Seed) : Out :=
  let out0 := initOut flags
  let ns := normalizeSeed seed0 out0
  let seed := ns.1
  let out1 := ns.2
  let out2 := if strTruthy seed.upc then resolveDiscogsByUPC o seed out1 else out1
  let out3 := resolveMusicBrainz o seed out2
  let out4 := resolveWikidataAndWikipedia o seed out3
  let out5 := enrichFromWikipedia o seed out4
  let out6 := if flags.images ≠ "none" then buildImageGalleries o seed out5 else out5
  let out7 := finalizeCanonical out6
  aggregateDownloadList out7

/-- Whether a barcode search returns a non-empty release list
(the 3a success test, part_002 line 313). -/
def mbSearchHasResults (o : Oracle) (bc : String) : Bool :=
  match (mbBarcodeSearch o bc).result with
  | some se => !se.releases.isEmpty
  | none => false

/-- Whether the artist+title search returns a non-empty release list
(the 3c success test, part_002 line 336). -/
def mbTextHasResults (o : Oracle) (title artist : String) : Bool :=
  match (mbTextSearch o title artist).result with
  | some se => !se.releases.isEmpty
  | none => false

/-- Default flags (`all=0`, `images=both`, `lang=en`, `max_images=12`). -/
def flags0 : Flags := {}

/-- A network where every endpoint answers 404 with an empty body. -/
def oracle0 : Oracle :=
  { discogsSearch := fun _ => (⟨404, {}⟩, ⟨404, {}⟩)
    mbBarcode := fun _ => (⟨404, {}⟩, ⟨404, {}⟩)
    mbText := fun _ _ => (⟨404, {}⟩, ⟨404, {}⟩)
    mbRelease := fun _ => ⟨404, {}⟩
    mbRGWarm := fun _ => (⟨404, ()⟩, ⟨404, ()⟩)
    mbArtistWarm := fun _ => (⟨404, ()⟩, ⟨404, ()⟩)
    sparqlRG := fun _ => ⟨404, {}⟩
    sparqlTitleArtist := fun _ _ => ⟨404, {}⟩
    sparqlArtist := fun _ => ⟨404, {}⟩
    wdEntity := fun _ => (⟨404, {}⟩, ⟨404, {}⟩)
    wpSummary := fun _ => (⟨404, {}⟩, ⟨404, {}⟩)
    wpInfobox := fun _ => (⟨404, {}⟩, ⟨404, {}⟩)
    wpMediaList := fun _ => (⟨404, {}⟩, ⟨404, {}⟩)
    wpHtml := fun _ => ⟨404, {}⟩
    commons := fun _ => ⟨404, {}⟩ }

/-- A network where only the MusicBrainz release-detail endpoint answers:
every release id hydrates to a minimal release `R1` titled `Kind of Blue`
with no relations, credits or release-group. -/
def oracleMbid : Oracle :=
  { oracle0 with
    mbRelease := fun _ => ⟨200, { id := "R1", title := some "Kind of Blue" }⟩ }

/-- A network where only the barcode search answers: every barcode search
returns one stub release whose hydration then fails, which is enough for
strategy 3a to claim the match. -/
def oracleBarcode : Oracle :=
  { oracle0 with
    mbBarcode := fun _ => (⟨200, { releases := [⟨"R2"⟩] }⟩, ⟨200, { releases := [⟨"R2"⟩] }⟩) }

/-- A network where only the artist+title text search answers. -/
def oracleText : Oracle :=
  { oracle0 with
    mbText := fun _ _ => (⟨200, { releases := [⟨"R3"⟩] }⟩, ⟨200, { releases := [⟨"R3"⟩] }⟩) }

/-! ## Theorems -/

/-- String extensionality specialized to the empty string. -/
theorem string_eq_empty_iff (s : String) : s = "" ↔ s.data = [] := by
  constructor
  · intro h
    subst h
    rfl
  · intro h
    cases s with
    | mk d =>
      simp only at h
      subst h
      rfl

/-- `String.mk` applied to a string's own character list. -/
theorem string_mk_data (s : String) : String.mk s.data = s := by
  cases s
  rfl

/-- `dropWhile` is idempotent. -/
theorem dropWhile_idem {α : Type} (p : α → Bool) (l : List α) :
    (l.dropWhile p).dropWhile p = l.dropWhile p := by
  induction l with
  | nil => rfl
  | cons a t ih =>
    by_cases h : p a
    · simp only [List.dropWhile_cons, h, if_true]
      exact ih
    · have h' : p a = false := by simpa using h
      simp [List.dropWhile_cons, h']

/-- **C4.** For every call through the generic JSON fetch helper: if the
first attempt returns HTTP 429, exactly one retry is issued after a single
fixed 2000 ms wait, and when that retry is also unsuccessful the call
returns `null` while exactly two diagnostics entries (initial attempt and
retry, in call order, each carrying its path and status code) are produced;
on any non-success status other than 429 no retry occurs (one entry, no
sleep) and the call returns `null`. -/
theorem getjson_429_retry_and_failure {α : Type} (path qs : String)
    (a1 a2 : HttpAttempt α) :
    (a1.status = 429 → ¬ isOkStatus a2.status →
      (GETjson path qs a1 a2).result = none ∧
      (GETjson path qs a1 a2).entries =
        [⟨path ++ (if qs = "" then "" else "?" ++ qs), a1.status⟩,
         ⟨path ++ " (retry)", a2.status⟩] ∧
      (GETjson path qs a1 a2).sleepsMs = [2000]) ∧
    (a1.status = 429 → isOkStatus a2.status →
      (GETjson path qs a1 a2).result = some a2.body ∧
      (GETjson path qs a1 a2).entries.length = 2 ∧
      (GETjson path qs a1 a2).sleepsMs = [2000]) ∧
    (a1.status ≠ 429 → ¬ isOkStatus a1.status →
      (GETjson path qs a1 a2).result = none ∧
      (GETjson path qs a1 a2).entries =
        [⟨path ++ (if qs = "" then "" else "?" ++ qs), a1.status⟩] ∧
      (GETjson path qs a1 a2).sleepsMs = []) := by
  refine ⟨?_, ?_, ?_⟩
  · intro h429 hbad
    simp [GETjson, h429, hbad]
  · intro h429 hok
    simp [GETjson, h429, hok]
  · intro hne hbad
    simp [GETjson, hne, hbad]

/-- Witness for `getjson_429_retry_and_failure`: a double-429 call and a
single-500 call, with every hypothesis discharged on concrete attempts. -/
theorem getjson_429_retry_and_failure_witness :
    (GETjson "/p" "q=1" (⟨429, (0 : Nat)⟩ : HttpAttempt Nat) ⟨429, 0⟩).result = none ∧
    (GETjson "/p" "q=1" (⟨429, (0 : Nat)⟩ : HttpAttempt Nat) ⟨429, 0⟩).entries =
      [⟨"/p?q=1", 429⟩, ⟨"/p (retry)", 429⟩] ∧
    (GETjson "/p" "q=1" (⟨429, (0 : Nat)⟩ : HttpAttempt Nat) ⟨429, 0⟩).sleepsMs = [2000] ∧
    (GETjson "/p" "" (⟨500, (0 : Nat)⟩ : HttpAttempt Nat) ⟨200, 0⟩).result = none ∧
    (GETjson "/p" "" (⟨500, (0 : Nat)⟩ : HttpAttempt Nat) ⟨200, 0⟩).entries =
      [⟨"/p", 500⟩] ∧
    (GETjson "/p" "" (⟨500, (0 : Nat)⟩ : HttpAttempt Nat) ⟨200, 0⟩).sleepsMs = [] := by
  have h1 := (getjson_429_retry_and_failure "/p" "q=1"
    (⟨429, (0 : Nat)⟩ : HttpAttempt Nat) ⟨429, 0⟩).1 rfl (by decide)
  have h2 := (getjson_429_retry_and_failure "/p" ""
    (⟨500, (0 : Nat)⟩ : HttpAttempt Nat) ⟨200, 0⟩).2.2 (by decide) (by decide)
  refine ⟨h1.1, ?_, h1.2.2, h2.1, ?_, h2.2.2⟩
  · simpa using h1.2.1
  · simpa using h2.2.1

/-- **C9.** Barcode canonicalization: (1) a string of exactly 12 or 13
digits is returned unchanged; (2) `normalizeBarcode` is idempotent on every
input; (3) for any other non-empty digit extraction, leading zeros are
stripped, falling back to the original digit string when stripping empties
it; (4) an input without digits yields `null`. -/
theorem normalizeBarcode_spec :
    (∀ s : String, (∀ c ∈ s.data, c.isDigit) →
      (s.data.length = 12 ∨ s.data.length = 13) →
      normalizeBarcode (some s) = some s) ∧
    (∀ b : Option String, normalizeBarcode (normalizeBarcode b) = normalizeBarcode b) ∧
    (∀ s : String, s.data.filter Char.isDigit ≠ [] →
      (s.data.filter Char.isDigit).length ≠ 12 →
      (s.data.filter Char.isDigit).length ≠ 13 →
      normalizeBarcode (some s) =
        some (String.mk
          (if (s.data.filter Char.isDigit).dropWhile (fun c => c = '0') = []
           then s.data.filter Char.isDigit
           else (s.data.filter Char.isDigit).dropWhile (fun c => c = '0')))) ∧
    (∀ s : String, s.data.filter Char.isDigit = [] → normalizeBarcode (some s) = none) := by
  have hfix : ∀ s : String, (∀ c ∈ s.data, c.isDigit) →
      (s.data.length = 12 ∨ s.data.length = 13) →
      normalizeBarcode (some s) = some s := by
    intro s hdig hlen
    have hne : s ≠ "" := by
      intro h
      rw [string_eq_empty_iff] at h
      rw [h] at hlen
      simp at hlen
    have hfilter : s.data.filter Char.isDigit = s.data := List.filter_eq_self.mpr hdig
    have hnil : s.data ≠ [] := by
      intro h
      rw [h] at hlen
      simp at hlen
    rcases hlen with h12 | h13
    · simp [normalizeBarcode, hne, hfilter, hnil, h12, string_mk_data]
    · simp [normalizeBarcode, hne, hfilter, hnil, h13, string_mk_data]
  have hnodigit : ∀ s : String, s.data.filter Char.isDigit = [] →
      normalizeBarcode (some s) = none := by
    intro s h
    by_cases hne : s = ""
    · simp [normalizeBarcode, hne]
    · simp [normalizeBarcode, hne, h]
  have hstrip : ∀ s : String, s.data.filter Char.isDigit ≠ [] →
      (s.data.filter Char.isDigit).length ≠ 12 →
      (s.data.filter Char.isDigit).length ≠ 13 →
      normalizeBarcode (some s) =
        some (String.mk
          (if (s.data.filter Char.isDigit).dropWhile (fun c => c = '0') = []
           then s.data.filter Char.isDigit
           else (s.data.filter Char.isDigit).dropWhile (fun c => c = '0'))) := by
    intro s hne h12 h13
    have hsne : s ≠ "" := by
      intro h
      rw [string_eq_empty_iff] at h
      rw [h] at hne
      simp at hne
    by_cases hdw : (s.data.filter Char.isDigit).dropWhile (fun c => c = '0') = []
    · simp [normalizeBarcode, hsne, hne, h12, h13, hdw]
    · simp [normalizeBarcode, hsne, hne, h12, h13, hdw]
  refine ⟨hfix, ?_, hstrip, hnodigit⟩
  intro b
  match b with
  | none => rfl
  | some s =>
    by_cases hne : s = ""
    · simp [normalizeBarcode, hne]
    · by_cases hdnil : s.data.filter Char.isDigit = []
      · rw [hnodigit s hdnil]
        rfl
      · set digits := s.data.filter Char.isDigit with hdigits
        have hdigall : ∀ c ∈ digits, c.isDigit := by
          intro c hc
          exact List.of_mem_filter hc
        by_cases h12 : digits.length = 12
        · have hres : normalizeBarcode (some s) = some (String.mk digits) := by
            simp [normalizeBarcode, hne, ← hdigits, hdnil, h12]
          rw [hres]
          apply hfix
          · intro c hc
            exact hdigall c hc
          · left
            exact h12
        · by_cases h13 : digits.length = 13
          · have hres : normalizeBarcode (some s) = some (String.mk digits) := by
              simp [normalizeBarcode, hne, ← hdigits, hdnil, h12, h13]
            rw [hres]
            apply hfix
            · intro c hc
              exact hdigall c hc
            · right
              exact h13
          · rw [hstrip s hdnil h12 h13]
            rw [← hdigits]
            by_cases hdw : digits.dropWhile (fun c => c = '0') = []
            · -- all digits are zeros: the fallback keeps the digit string,
              -- and a second run strips to empty again.
              rw [if_pos hdw]
              have hall0 : ∀ c ∈ digits, c = '0' := by
                have := List.dropWhile_eq_nil_iff.mp hdw
                intro c hc
                exact of_decide_eq_true (this c hc)
              have hfilter2 : digits.filter Char.isDigit = digits :=
                List.filter_eq_self.mpr hdigall
              have hmkne : String.mk digits ≠ "" := by
                intro hcontr
                apply hdnil
                have := congrArg String.data hcontr
                simpa using this
              simp [normalizeBarcode, hmkne, hfilter2, hdnil, h12, h13, hdw]
            · rw [if_neg hdw]
              set stripped := digits.dropWhile (fun c => c = '0') with hstr
              have hstripall : ∀ c ∈ stripped, c.isDigit := by
                intro c hc
                exact hdigall c ((List.dropWhile_sublist _).mem hc)
              have hfilter2 : stripped.filter Char.isDigit = stripped :=
                List.filter_eq_self.mpr hstripall
              have hmkne : String.mk stripped ≠ "" := by
                intro hcontr
                apply hdw
                have := congrArg String.data hcontr
                simpa using this
              by_cases hs12 : stripped.length = 12
              · simp [normalizeBarcode, hmkne, hfilter2, hdw, hs12]
              · by_cases hs13 : stripped.length = 13
                · simp [normalizeBarcode, hmkne, hfilter2, hdw, hs12, hs13]
                · have hdw2 : stripped.dropWhile (fun c => c = '0') = stripped := by
                    rw [hstr]
                    exact dropWhile_idem _ _
                  simp [normalizeBarcode, hmkne, hfilter2, hdw, hs12, hs13, hdw2]

/-- Witness for `normalizeBarcode_spec`: each conjunct applied at a concrete
input with its hypotheses discharged. -/
theorem normalizeBarcode_spec_witness :
    normalizeBarcode (some "888751119215") = some "888751119215" ∧
    normalizeBarcode (normalizeBarcode (some "0-88875-11192-1-5x")) =
      normalizeBarcode (some "0-88875-11192-1-5x") ∧
    normalizeBarcode (some "00123456789012345") = some "123456789012345" ∧
    normalizeBarcode (some "abc") = none := by
  refine ⟨?_, ?_, ?_, ?_⟩
  · exact normalizeBarcode_spec.1 "888751119215" (by decide) (by decide)
  · exact normalizeBarcode_spec.2.1 (some "0-88875-11192-1-5x")
  · have h := normalizeBarcode_spec.2.2.1 "00123456789012345"
      (by decide) (by decide) (by decide)
    rw [h]
    rfl
  · exact normalizeBarcode_spec.2.2.2 "abc" (by decide)

/-- Membership in the insertion-order set build. -/
theorem mem_setDedupAux (l : List String) :
    ∀ (seen : List String) (a : String),
      a ∈ setDedupAux seen l ↔ a ∈ l ∧ a ∉ seen := by
  induction l with
  | nil =>
    intro seen a
    simp [setDedupAux]
  | cons x xs ih =>
    intro seen a
    by_cases hx : x ∈ seen
    · rw [setDedupAux, if_pos hx, ih]
      constructor
      · rintro ⟨hmem, hns⟩
        exact ⟨List.mem_cons_of_mem _ hmem, hns⟩
      · rintro ⟨hmem, hns⟩
        rcases List.mem_cons.mp hmem with rfl | hmem
        · exact absurd hx hns
        · exact ⟨hmem, hns⟩
    · rw [setDedupAux, if_neg hx]
      constructor
      · intro hmem
        rcases List.mem_cons.mp hmem with rfl | hmem
        · exact ⟨List.mem_cons_self _ _, hx⟩
        · have := (ih (x :: seen) a).mp hmem
          refine ⟨List.mem_cons_of_mem _ this.1, ?_⟩
          intro hs
          exact this.2 (List.mem_cons_of_mem _ hs)
      · rintro ⟨hmem, hns⟩
        rcases List.mem_cons.mp hmem with rfl | hmem
        · exact List.mem_cons_self _ _
        · by_cases hax : a = x
          · subst hax
            exact List.mem_cons_self _ _
          · refine List.mem_cons_of_mem _ ((ih (x :: seen) a).mpr ⟨hmem, ?_⟩)
            intro hs
            rcases List.mem_cons.mp hs with h | h
            · exact hax h
            · exact hns h

/-- The insertion-order set build never repeats an element. -/
theorem nodup_setDedupAux (l : List String) :
    ∀ seen : List String, (setDedupAux seen l).Nodup := by
  induction l with
  | nil =>
    intro seen
    simp [setDedupAux]
  | cons x xs ih =>
    intro seen
    by_cases hx : x ∈ seen
    · rw [setDedupAux, if_pos hx]
      exact ih seen
    · rw [setDedupAux, if_neg hx]
      refine List.nodup_cons.mpr ⟨?_, ih (x :: seen)⟩
      intro hmem
      exact ((mem_setDedupAux xs (x :: seen) x).mp hmem).2 (List.mem_cons_self _ _)

/-- The insertion-order set build lists elements in strictly increasing
first-occurrence order of the input. -/
theorem pairwise_indexOf_setDedupAux (l : List String) :
    ∀ seen : List String,
      (setDedupAux seen l).Pairwise (fun a b => l.indexOf a < l.indexOf b) := by
  induction l with
  | nil =>
    intro seen
    simp [setDedupAux]
  | cons x xs ih =>
    intro seen
    by_cases hx : x ∈ seen
    · rw [setDedupAux, if_pos hx]
      refine ((ih seen).imp_of_mem ?_)
      intro a b ha hb hlt
      have hax : a ≠ x := by
        intro h
        exact ((mem_setDedupAux xs seen a).mp ha).2 (h ▸ hx)
      have hbx : b ≠ x := by
        intro h
        exact ((mem_setDedupAux xs seen b).mp hb).2 (h ▸ hx)
      rw [List.indexOf_cons_ne _ (Ne.symm hax), List.indexOf_cons_ne _ (Ne.symm hbx)]
      omega
    · rw [setDedupAux, if_neg hx]
      refine List.pairwise_cons.mpr ⟨?_, ?_⟩
      · intro b hb
        have hbmem := (mem_setDedupAux xs (x :: seen) b).mp hb
        have hbx : b ≠ x := by
          intro h
          exact hbmem.2 (h ▸ List.mem_cons_self _ _)
        rw [List.indexOf_cons_self, List.indexOf_cons_ne _ (Ne.symm hbx)]
        omega
      · refine ((ih (x :: seen)).imp_of_mem ?_)
        intro a b ha hb hlt
        have hax : a ≠ x := by
          intro h
          exact ((mem_setDedupAux xs (x :: seen) a).mp ha).2 (h ▸ List.mem_cons_self _ _)
        have hbx : b ≠ x := by
          intro h
          exact ((mem_setDedupAux xs (x :: seen) b).mp hb).2 (h ▸ List.mem_cons_self _ _)
        rw [List.indexOf_cons_ne _ (Ne.symm hax), List.indexOf_cons_ne _ (Ne.symm hbx)]
        omega

/-- Membership in `dedupe`: exactly the truthy members of the input. -/
theorem mem_dedupe (l : List String) (a : String) :
    a ∈ dedupe l ↔ a ∈ l ∧ a ≠ "" := by
  rw [dedupe, mem_setDedupAux]
  simp [List.mem_filter]

/-- `dedupe` output is duplicate-free. -/
theorem nodup_dedupe (l : List String) : (dedupe l).Nodup :=
  nodup_setDedupAux _ []

/-- The gallery URL collection is the filtered projection of the traversal. -/
theorem galleryUrls_eq (w : WikiGalleries) :
    galleryUrls w =
      ((w.article_gallery ++ w.album_gallery ++ w.artist_gallery).map
        (fun it => it.url)).filter (fun u => u ≠ "") := by
  rw [galleryUrls]
  generalize (w.article_gallery ++ w.album_gallery ++ w.artist_gallery) = l
  induction l with
  | nil => rfl
  | cons it t ih =>
    rw [List.foldr_cons, List.map_cons, List.filter_cons]
    by_cases h : it.url = ""
    · rw [if_neg (fun hn => hn h), if_neg (by simp [h]), ih]
    · rw [if_pos h, if_pos (by simp [h]), ih]

/-- On a list without falsy entries, the `filter(Boolean)` inside `dedupe`
is the identity. -/
theorem dedupe_of_no_empty (l : List String) (h : ∀ a ∈ l, a ≠ "") :
    dedupe l = setDedupAux [] l := by
  rw [dedupe, List.filter_eq_self.mpr (by intro a ha; simpa using h a ha)]

/-- **C6.** For every combination of gallery contents, the aggregated
download list contains no duplicate URLs, contains no empty URL, contains
exactly the non-empty URLs of the galleries, and lists them in strictly
increasing first-seen order of the traversal that visits the article
gallery, then the album gallery, then the artist gallery. -/
theorem download_list_spec (s : Out) :
    ((aggregateDownloadList s).download_image_urls).Nodup ∧
    "" ∉ (aggregateDownloadList s).download_image_urls ∧
    (∀ u, u ∈ (aggregateDownloadList s).download_image_urls ↔
      (u ≠ "" ∧ u ∈ (s.wiki.article_gallery ++ s.wiki.album_gallery ++
        s.wiki.artist_gallery).map (fun it => it.url))) ∧
    ((aggregateDownloadList s).download_image_urls).Pairwise
      (fun a b => (galleryUrls s.wiki).indexOf a < (galleryUrls s.wiki).indexOf b) := by
  have hurls : (aggregateDownloadList s).download_image_urls =
      dedupe (galleryUrls s.wiki) := rfl
  have hmem : ∀ u, u ∈ dedupe (galleryUrls s.wiki) ↔
      (u ≠ "" ∧ u ∈ (s.wiki.article_gallery ++ s.wiki.album_gallery ++
        s.wiki.artist_gallery).map (fun it => it.url)) := by
    intro u
    rw [mem_dedupe, galleryUrls_eq, List.mem_filter]
    constructor
    · rintro ⟨⟨hm, hne⟩, _⟩
      exact ⟨by simpa using hne, hm⟩
    · rintro ⟨hne, hm⟩
      exact ⟨⟨hm, by simpa using hne⟩, by simpa using hne⟩
  refine ⟨?_, ?_, ?_, ?_⟩
  · rw [hurls]
    exact nodup_dedupe _
  · rw [hurls]
    intro hmem'
    exact (((hmem "").mp hmem').1) rfl
  · intro u
    rw [hurls]
    exact hmem u
  · rw [hurls]
    have hno : ∀ a ∈ galleryUrls s.wiki, a ≠ "" := by
      intro a ha
      rw [galleryUrls_eq, List.mem_filter] at ha
      simpa using ha.2
    rw [dedupe_of_no_empty _ hno]
    exact pairwise_indexOf_setDedupAux _ []

/-- Accumulator form of the table fold. -/
theorem foldl_filter_append {α β : Type} (p : α → Bool) (f : α → List β) :
    ∀ (l : List α) (acc : List β),
      l.foldl (fun acc tb => if p tb then acc ++ f tb else acc) acc =
        acc ++ (l.filter p).flatMap f := by
  intro l
  induction l with
  | nil =>
    intro acc
    simp
  | cons tb t ih =>
    intro acc
    by_cases h : p tb
    · rw [List.foldl_cons, if_pos h, ih, List.filter_cons, if_pos (by simpa using h),
        List.flatMap_cons, List.append_assoc]
    · rw [List.foldl_cons, if_neg h, ih, List.filter_cons,
        if_neg (by simpa using h)]

/-- When `captureRow` captures a row. -/
theorem captureRow_eq_some (cells : List String) (r : TLRow) :
    captureRow cells = some r ↔
      ∃ c0 c1 rest, cells = c0 :: c1 :: rest ∧
        startsWithDigit (trimWs (stripHtml c0)) ∧
        r = ⟨trimWs (stripHtml c0), trimWs (stripHtml c1)⟩ := by
  match cells with
  | [] =>
    simp [captureRow]
  | [c0] =>
    simp [captureRow]
  | c0 :: c1 :: rest =>
    simp only [captureRow, List.map_cons]
    by_cases h : startsWithDigit (trimWs (stripHtml c0))
    · simp only [h, if_true]
      constructor
      · intro heq
        injection heq with heq
        exact ⟨c0, c1, rest, rfl, h, heq.symm⟩
      · rintro ⟨c0', c1', rest', hcells, _, hr⟩
        obtain ⟨rfl, rfl, rfl⟩ : c0 = c0' ∧ c1 = c1' ∧ rest = rest' := by
          injection hcells with h1 h2
          injection h2 with h2 h3
          exact ⟨h1, h2, h3⟩
        rw [hr]
    · simp only [h, if_false]
      constructor
      · intro heq
        cases heq
      · rintro ⟨c0', c1', rest', hcells, hdig, hr⟩
        obtain ⟨rfl, rfl, rfl⟩ : c0 = c0' ∧ c1 = c1' ∧ rest = rest' := by
          injection hcells with h1 h2
          injection h2 with h2 h3
          exact ⟨h1, h2, h3⟩
        exact absurd hdig h

/-- **C8 (amended).** In the tracklist extractor, over the track-listing
tables that pass the keyword gate, a row is captured as a `{number, title}`
pair if and only if it has at least two cells and its first cell
(tag-stripped and trimmed) *starts with* a digit (`/^\d+/`); captured rows
appear in table order and row order (the fold is the ordered
filter/flat-map normal form); and the stage stores the rows only when at
least one was captured.  In particular a first cell that merely starts with
a digit, such as `"1a"`, is captured. -/
theorem extract_tracklist_spec (tables : List TLTable) :
    extractTracklistRows tables =
      (tables.filter (fun tb => isTrackTable tb.raw)).flatMap
        (fun tb => tb.rows.filterMap captureRow) ∧
    (∀ r, r ∈ extractTracklistRows tables ↔
      ∃ tb ∈ tables, isTrackTable tb.raw ∧
        ∃ cells ∈ tb.rows, ∃ c0 c1 rest, cells = c0 :: c1 :: rest ∧
          startsWithDigit (trimWs (stripHtml c0)) ∧
          r = ⟨trimWs (stripHtml c0), trimWs (stripHtml c1)⟩) ∧
    (∀ (doc : WikiHtmlDoc) (s : Out),
      (extractTracklistFromHTML doc s).wikipedia.tracklist =
        if extractTracklistRows doc.tables = [] then s.wikipedia.tracklist
        else some (extractTracklistRows doc.tables)) := by
  have hnorm : extractTracklistRows tables =
      (tables.filter (fun tb => isTrackTable tb.raw)).flatMap
        (fun tb => tb.rows.filterMap captureRow) := by
    rw [extractTracklistRows, foldl_filter_append]
    simp
  refine ⟨hnorm, ?_, ?_⟩
  · intro r
    rw [hnorm, List.mem_flatMap]
    constructor
    · rintro ⟨tb, htb, hr⟩
      rw [List.mem_filter] at htb
      rw [List.mem_filterMap] at hr
      obtain ⟨cells, hcells, hcap⟩ := hr
      obtain ⟨c0, c1, rest, hc, hd, hre⟩ := (captureRow_eq_some cells r).mp hcap
      exact ⟨tb, htb.1, by simpa using htb.2, cells, hcells, c0, c1, rest, hc, hd, hre⟩
    · rintro ⟨tb, htb, hkey, cells, hcells, c0, c1, rest, hc, hd, hre⟩
      refine ⟨tb, ?_, ?_⟩
      · rw [List.mem_filter]
        exact ⟨htb, by simpa using hkey⟩
      · rw [List.mem_filterMap]
        exact ⟨cells, hcells, (captureRow_eq_some cells r).mpr ⟨c0, c1, rest, hc, hd, hre⟩⟩
  · intro doc s
    rw [extractTracklistFromHTML]
    by_cases h : extractTracklistRows doc.tables = []
    · simp [h]
    · simp [h]

/-- **C8 (counterexample).** A row whose first cell is `"1a"` — not a
number — is nevertheless captured by the extractor, because the test is
`/^\d+/` ("starts with a digit"), not "is numeric". -/
theorem tracklist_nonnumeric_first_cell_captured :
    extractTracklistRows
        [{ raw := "<caption>Track listing</caption>",
           rows := [["<td>1a</td>", "<td>So What</td>"]] }] =
      [{ no := "1a", title := "So What" }] ∧
    ("1a".data.all Char.isDigit) = false := by
  constructor
  · rfl
  · decide

/-- **C7 (code evaluated at the failing input).** The compact command
parser splits on whitespace *before* stripping quotes, so a quoted value
with an embedded space is cut at the space: `artist:"Miles Davis"` yields
the seed artist `"Miles` (with the opening quote kept), not `Miles Davis`.
Repeated keys do take the last occurrence. -/
theorem cmd_quoted_value_split_at_space :
    (parseSeed {} (some "enrich -all artist:\"Miles Davis\"")).artist = some "\"Miles" ∧
    (parseSeed {} (some "enrich -all artist:\"Miles Davis\"")).artist ≠ some "Miles Davis" ∧
    (parseSeed {} (some "upc:123 qid:Q1 upc:456")).upc = some "456" := by
  refine ⟨rfl, by decide, rfl⟩

/-- `sparqlCall` only appends to `wd_http`: every other component of the
document is unchanged. -/
theorem sparqlCall_frame (att : HttpAttempt SparqlResult) (tag : String) (s : Out) :
    (sparqlCall att tag s).2.canonical = s.canonical ∧
    (sparqlCall att tag s).2.ids = s.ids ∧
    (sparqlCall att tag s).2.diagnostics.tried_barcodes = s.diagnostics.tried_barcodes ∧
    (sparqlCall att tag s).2.diagnostics.matched_on = s.diagnostics.matched_on ∧
    (sparqlCall att tag s).2.canonical.format = s.canonical.format := by
  rw [sparqlCall]
  split
  · split
    · split
      · exact ⟨rfl, rfl, rfl, rfl, rfl⟩
      · exact ⟨rfl, rfl, rfl, rfl, rfl⟩
    · exact ⟨rfl, rfl, rfl, rfl, rfl⟩
  · exact ⟨rfl, rfl, rfl, rfl, rfl⟩

/-- `fetchWikidataEntity` only appends to `wd_http`. -/
theorem fetchWikidataEntity_frame (o : Oracle) (qid : String) (s : Out) :
    (fetchWikidataEntity o qid s).2.canonical = s.canonical ∧
    (fetchWikidataEntity o qid s).2.ids = s.ids ∧
    (fetchWikidataEntity o qid s).2.diagnostics.tried_barcodes =
      s.diagnostics.tried_barcodes ∧
    (fetchWikidataEntity o qid s).2.diagnostics.matched_on = s.diagnostics.matched_on := by
  rw [fetchWikidataEntity]
  exact ⟨rfl, rfl, rfl, rfl⟩

/-- `hydrateMBRelease` only appends to `mb_http` and `notes`. -/
theorem hydrateMBRelease_frame (o : Oracle) (id : String) (s : Out) :
    (hydrateMBRelease o id s).2.canonical = s.canonical ∧
    (hydrateMBRelease o id s).2.ids = s.ids ∧
    (hydrateMBRelease o id s).2.diagnostics.tried_barcodes =
      s.diagnostics.tried_barcodes ∧
    (hydrateMBRelease o id s).2.diagnostics.matched_on = s.diagnostics.matched_on := by
  rw [hydrateMBRelease]
  split
  · exact ⟨rfl, rfl, rfl, rfl⟩
  · exact ⟨rfl, rfl, rfl, rfl⟩

/-- `commonsImageInfo` only appends to `wiki_http`. -/
theorem commonsImageInfo_frame (o : Oracle) (f : String) (s : Out) :
    (commonsImageInfo o f s).2.canonical = s.canonical ∧
    (commonsImageInfo o f s).2.ids = s.ids ∧
    (commonsImageInfo o f s).2.diagnostics.tried_barcodes =
      s.diagnostics.tried_barcodes ∧
    (commonsImageInfo o f s).2.diagnostics.matched_on = s.diagnostics.matched_on := by
  rw [commonsImageInfo]
  split
  · exact ⟨rfl, rfl, rfl, rfl⟩
  · exact ⟨rfl, rfl, rfl, rfl⟩

/-- The strategy-3a loop only appends to `mb_http` and possibly sets
`matched_on`; canonical record, ids and tried barcodes are untouched, and
`matched_on` is either kept or set to `"upc"` (the latter exactly when a
candidate was found). -/
theorem mbBarcodeLoop_frame (o : Oracle) (bcs : List String) (s : Out) :
    (mbBarcodeLoop o bcs s).2.canonical = s.canonical ∧
    (mbBarcodeLoop o bcs s).2.ids = s.ids ∧
    (mbBarcodeLoop o bcs s).2.diagnostics.tried_barcodes =
      s.diagnostics.tried_barcodes ∧
    ((mbBarcodeLoop o bcs s).1.isSome →
      (mbBarcodeLoop o bcs s).2.diagnostics.matched_on = some "upc") ∧
    ((mbBarcodeLoop o bcs s).1 = none →
      (mbBarcodeLoop o bcs s).2.diagnostics.matched_on = s.diagnostics.matched_on) := by
  induction bcs generalizing s with
  | nil =>
    rw [mbBarcodeLoop]
    refine ⟨rfl, rfl, rfl, ?_, fun _ => rfl⟩
    intro h
    simp at h
  | cons bc rest ih =>
    rw [mbBarcodeLoop]
    cases hres : (mbBarcodeSearch o bc).result with
    | some search =>
      cases hhead : search.releases.head? with
      | some stub => simp [hres, hhead]
      | none =>
        simp only [hres, hhead]
        exact ih _
    | none =>
      simp only [hres]
      exact ih _

/-- `mbWarm` only appends to `mb_http`. -/
theorem mbWarm_frame (o : Oracle) (s : Out) :
    (mbWarm o s).canonical = s.canonical ∧
    (mbWarm o s).ids = s.ids ∧
    (mbWarm o s).diagnostics.tried_barcodes = s.diagnostics.tried_barcodes ∧
    (mbWarm o s).diagnostics.matched_on = s.diagnostics.matched_on := by
  rw [mbWarm]
  split
  · split
    · exact ⟨rfl, rfl, rfl, rfl⟩
    · exact ⟨rfl, rfl, rfl, rfl⟩
  · split
    · exact ⟨rfl, rfl, rfl, rfl⟩
    · exact ⟨rfl, rfl, rfl, rfl⟩

/-- The Discogs canonical contribution never touches the format set and
never overwrites a non-empty title. -/
theorem discogsFillCanonical_frame (upc : String) (hit : DiscogsHit) (c : Canonical) :
    (discogsFillCanonical upc hit c).format = c.format ∧
    (strTruthy c.title → (discogsFillCanonical upc hit c).title = c.title) := by
  rw [discogsFillCanonical]
  have h1 : ∀ c : Canonical, (discogsCountry hit c).format = c.format ∧
      (discogsCountry hit c).title = c.title := by
    intro c
    rw [discogsCountry]
    split <;> exact ⟨rfl, rfl⟩
  have h2 : ∀ c : Canonical, (discogsLabel hit c).format = c.format ∧
      (discogsLabel hit c).title = c.title := by
    intro c
    rw [discogsLabel]
    split <;> exact ⟨rfl, rfl⟩
  have h3 : ∀ c : Canonical, (discogsGenre hit c).format = c.format ∧
      (discogsGenre hit c).title = c.title := by
    intro c
    rw [discogsGenre]
    split <;> exact ⟨rfl, rfl⟩
  have h4 : ∀ c : Canonical, (discogsStyle hit c).format = c.format ∧
      (discogsStyle hit c).title = c.title := by
    intro c
    rw [discogsStyle]
    split <;> exact ⟨rfl, rfl⟩
  have h5 : ∀ c : Canonical, (discogsTitleArtist hit c).format = c.format ∧
      (strTruthy c.title → (discogsTitleArtist hit c).title = c.title) := by
    intro c
    rw [discogsTitleArtist]
    constructor
    · split
      · split <;> rfl
      · rfl
    · intro h
      split
      · simp_all
      · rfl
  have h6 : ∀ c : Canonical, (discogsYear hit c).format = c.format ∧
      (discogsYear hit c).title = c.title := by
    intro c
    rw [discogsYear]
    split <;> exact ⟨rfl, rfl⟩
  have h7 : ∀ c : Canonical, (discogsThumb hit c).format = c.format ∧
      (discogsThumb hit c).title = c.title := by
    intro c
    rw [discogsThumb]
    split <;> exact ⟨rfl, rfl⟩
  constructor
  · rw [(h7 _).1, (h6 _).1, (h5 _).1, (h4 _).1, (h3 _).1, (h2 _).1, (h1 _).1]
  · intro h
    have e1 := (h1 c).2
    have e2 := (h2 (discogsCountry hit c)).2
    have e3 := (h3 (discogsLabel hit (discogsCountry hit c))).2
    have e4 := (h4 (discogsGenre hit (discogsLabel hit (discogsCountry hit c)))).2
    have t1 : strTruthy (discogsStyle hit (discogsGenre hit (discogsLabel hit
        (discogsCountry hit c)))).title = true := by
      rw [e4, e3, e2, e1]
      exact h
    have e5 := (h5 (discogsStyle hit (discogsGenre hit (discogsLabel hit
      (discogsCountry hit c))))).2 t1
    have e6 := (h6 (discogsTitleArtist hit (discogsStyle hit (discogsGenre hit
      (discogsLabel hit (discogsCountry hit c)))))).2
    have e7 := (h7 (discogsYear hit (discogsTitleArtist hit (discogsStyle hit
      (discogsGenre hit (discogsLabel hit (discogsCountry hit c))))))).2
    rw [e7, e6, e5, e4, e3, e2, e1]

/-- The MusicBrainz canonical contribution never touches the format set and
never overwrites a non-empty title. -/
theorem mbFillCanonical_frame (full : MBRelease) (c : Canonical) :
    (mbFillCanonical full c).format = c.format ∧
    (strTruthy c.title → (mbFillCanonical full c).title = c.title) := by
  have h1 : ∀ c : Canonical, (mbTitle full c).format = c.format ∧
      (strTruthy c.title → (mbTitle full c).title = c.title) := by
    intro c
    rw [mbTitle]
    constructor
    · split <;> rfl
    · intro h
      split <;> simp_all
  have h2 : ∀ c : Canonical, (mbArtist full c).format = c.format ∧
      (mbArtist full c).title = c.title := by
    intro c
    rw [mbArtist]
    split <;> exact ⟨rfl, rfl⟩
  have h3 : ∀ c : Canonical, (mbCountry full c).format = c.format ∧
      (mbCountry full c).title = c.title := by
    intro c
    rw [mbCountry]
    split <;> exact ⟨rfl, rfl⟩
  have h4 : ∀ c : Canonical, (mbYear full c).format = c.format ∧
      (mbYear full c).title = c.title := by
    intro c
    rw [mbYear]
    split <;> exact ⟨rfl, rfl⟩
  have h5 : ∀ c : Canonical, (mbLabelCatalog full c).format = c.format ∧
      (mbLabelCatalog full c).title = c.title := by
    intro c
    rw [mbLabelCatalog]
    split
    · dsimp only
      split_ifs <;> exact ⟨rfl, rfl⟩
    · exact ⟨rfl, rfl⟩
  have h6 : ∀ c : Canonical, (mbGenre full c).format = c.format ∧
      (mbGenre full c).title = c.title := by
    intro c
    rw [mbGenre]
    split <;> exact ⟨rfl, rfl⟩
  rw [mbFillCanonical]
  constructor
  · rw [(h6 _).1, (h5 _).1, (h4 _).1, (h3 _).1, (h2 _).1, (h1 _).1]
  · intro h
    have e1 := (h1 c).2 h
    have e2 := (h2 (mbTitle full c)).2
    have e3 := (h3 (mbArtist full (mbTitle full c))).2
    have e4 := (h4 (mbCountry full (mbArtist full (mbTitle full c)))).2
    have e5 := (h5 (mbYear full (mbCountry full (mbArtist full (mbTitle full c))))).2
    have e6 := (h6 (mbLabelCatalog full (mbYear full (mbCountry full
      (mbArtist full (mbTitle full c)))))).2
    rw [e6, e5, e4, e3, e2, e1]

/-- Frame for the hydrated-release application: format, tried barcodes and
`matched_on` are preserved, and a non-empty title is never overwritten. -/
theorem mbApplyFull_frame (o : Oracle) (relId : String) (s : Out) :
    (mbApplyFull o relId s).canonical.format = s.canonical.format ∧
    (mbApplyFull o relId s).diagnostics.tried_barcodes = s.diagnostics.tried_barcodes ∧
    (mbApplyFull o relId s).diagnostics.matched_on = s.diagnostics.matched_on ∧
    (strTruthy s.canonical.title →
      (mbApplyFull o relId s).canonical.title = s.canonical.title) := by
  have hh := hydrateMBRelease_frame o relId s
  rw [mbApplyFull]
  cases hres : hydrateMBRelease o relId s with
  | mk fst snd =>
    rw [hres] at hh
    cases fst with
    | none =>
      exact ⟨by rw [hh.1], hh.2.2.1, hh.2.2.2, fun _ => by rw [hh.1]⟩
    | some full =>
      have hw := mbWarm_frame o
        { { { snd with ids := mbApplyIds full snd.ids } with
            canonical := mbFillCanonical full snd.canonical } with
          ids := full.relations.foldl mbRelationStep (mbApplyIds full snd.ids) }
      have hf := mbFillCanonical_frame full snd.canonical
      refine ⟨?_, ?_, ?_, ?_⟩
      · rw [hw.1]
        show (mbFillCanonical full snd.canonical).format = s.canonical.format
        rw [hf.1, hh.1]
      · rw [hw.2.2.1]
        exact hh.2.2.1
      · rw [hw.2.2.2]
        exact hh.2.2.2
      · intro ht
        rw [hw.1]
        show (mbFillCanonical full snd.canonical).title = s.canonical.title
        have ht' : strTruthy snd.canonical.title = true := by
          rw [hh.1]
          exact ht
        rw [hf.2 ht', hh.1]

/-- Frame for strategy 3a as a phase. -/
theorem mbPhase3a_frame (o : Oracle) (seed : Seed) (s : Out) :
    (mbPhase3a o seed s).2.canonical = s.canonical ∧
    (mbPhase3a o seed s).2.ids = s.ids ∧
    (mbPhase3a o seed s).2.diagnostics.tried_barcodes = s.diagnostics.tried_barcodes ∧
    ((mbPhase3a o seed s).1 = none →
      (mbPhase3a o seed s).2.diagnostics.matched_on = s.diagnostics.matched_on) := by
  rw [mbPhase3a]
  split
  · have h := mbBarcodeLoop_frame o (mbBarcodeCandidates s.diagnostics.tried_barcodes) s
    exact ⟨h.1, h.2.1, h.2.2.1, h.2.2.2.2⟩
  · exact ⟨rfl, rfl, rfl, fun _ => rfl⟩

/-- Frame for one direct-MBID phase (shared by the `mbid` and
`mb_release_mbid` halves): the threaded document keeps its canonical
record, ids, tried barcodes and `matched_on`. -/
theorem mbPhase3bMbid_frame (o : Oracle) (seed : Seed) (r : Option String × Out) :
    (mbPhase3bMbid o seed r).2.canonical = r.2.canonical ∧
    (mbPhase3bMbid o seed r).2.ids = r.2.ids ∧
    (mbPhase3bMbid o seed r).2.diagnostics.tried_barcodes =
      r.2.diagnostics.tried_barcodes ∧
    (mbPhase3bMbid o seed r).2.diagnostics.matched_on = r.2.diagnostics.matched_on := by
  obtain ⟨c, s⟩ := r
  cases c with
  | some i => exact ⟨rfl, rfl, rfl, rfl⟩
  | none =>
    rw [mbPhase3bMbid]
    split
    · have hh := hydrateMBRelease_frame o (getStr seed.mbid) s
      cases hres : hydrateMBRelease o (getStr seed.mbid) s with
      | mk fst snd =>
        rw [hres] at hh
        cases fst with
        | none => exact ⟨hh.1, hh.2.1, hh.2.2.1, hh.2.2.2⟩
        | some full => exact ⟨hh.1, hh.2.1, hh.2.2.1, hh.2.2.2⟩
    · exact ⟨rfl, rfl, rfl, rfl⟩

/-- Frame for the `mb_release_mbid` phase. -/
theorem mbPhase3bRel_frame (o : Oracle) (seed : Seed) (r : Option String × Out) :
    (mbPhase3bRel o seed r).2.canonical = r.2.canonical ∧
    (mbPhase3bRel o seed r).2.ids = r.2.ids ∧
    (mbPhase3bRel o seed r).2.diagnostics.tried_barcodes =
      r.2.diagnostics.tried_barcodes ∧
    (mbPhase3bRel o seed r).2.diagnostics.matched_on = r.2.diagnostics.matched_on := by
  obtain ⟨c, s⟩ := r
  cases c with
  | some i => exact ⟨rfl, rfl, rfl, rfl⟩
  | none =>
    rw [mbPhase3bRel]
    split
    · have hh := hydrateMBRelease_frame o (getStr seed.mb_release_mbid) s
      cases hres : hydrateMBRelease o (getStr seed.mb_release_mbid) s with
      | mk fst snd =>
        rw [hres] at hh
        cases fst with
        | none => exact ⟨hh.1, hh.2.1, hh.2.2.1, hh.2.2.2⟩
        | some full => exact ⟨hh.1, hh.2.1, hh.2.2.1, hh.2.2.2⟩
    · exact ⟨rfl, rfl, rfl, rfl⟩

/-- Frame for the artist+title fallback phase: canonical record, ids and
tried barcodes are untouched; `matched_on` is preserved whenever the phase
finds nothing. -/
theorem mbPhase3c_frame (o : Oracle) (seed : Seed) (r : Option String × Out) :
    (mbPhase3c o seed r).2.canonical = r.2.canonical ∧
    (mbPhase3c o seed r).2.ids = r.2.ids ∧
    (mbPhase3c o seed r).2.diagnostics.tried_barcodes =
      r.2.diagnostics.tried_barcodes ∧
    ((mbPhase3c o seed r).1 = none →
      (mbPhase3c o seed r).2.diagnostics.matched_on = r.2.diagnostics.matched_on) := by
  obtain ⟨c, s⟩ := r
  cases c with
  | some i => exact ⟨rfl, rfl, rfl, fun _ => rfl⟩
  | none =>
    rw [mbPhase3c]
    split
    · dsimp only
      split
      · split
        · exact ⟨rfl, rfl, rfl, fun h => by simp at h⟩
        · exact ⟨rfl, rfl, rfl, fun _ => rfl⟩
      · exact ⟨rfl, rfl, rfl, fun _ => rfl⟩
    · exact ⟨rfl, rfl, rfl, fun _ => rfl⟩

/-- Frame for the whole MusicBrainz resolver: the format set and the tried
barcodes are preserved, a non-empty canonical title is never overwritten,
and when no strategy marks a provenance the `matched_on` tag is preserved
(it is only ever set by strategies 3a and 3c). -/
theorem resolveMusicBrainz_frame (o : Oracle) (seed : Seed) (s : Out) :
    (resolveMusicBrainz o seed s).canonical.format = s.canonical.format ∧
    (resolveMusicBrainz o seed s).diagnostics.tried_barcodes =
      s.diagnostics.tried_barcodes ∧
    (strTruthy s.canonical.title →
      (resolveMusicBrainz o seed s).canonical.title = s.canonical.title) := by
  have h3a := mbPhase3a_frame o seed s
  have h3b1 := mbPhase3bMbid_frame o seed (mbPhase3a o seed s)
  have h3b2 := mbPhase3bRel_frame o seed (mbPhase3bMbid o seed (mbPhase3a o seed s))
  have h3c := mbPhase3c_frame o seed
    (mbPhase3bRel o seed (mbPhase3bMbid o seed (mbPhase3a o seed s)))
  rw [resolveMusicBrainz, mbFindCandidate]
  cases hres : mbPhase3c o seed
      (mbPhase3bRel o seed (mbPhase3bMbid o seed (mbPhase3a o seed s))) with
  | mk fst snd =>
    rw [hres] at h3c
    have hcanon : snd.canonical = s.canonical := by
      rw [h3c.1, h3b2.1, h3b1.1, h3a.1]
    have htried : snd.diagnostics.tried_barcodes = s.diagnostics.tried_barcodes := by
      rw [h3c.2.2.1, h3b2.2.2.1, h3b1.2.2.1, h3a.2.2.1]
    cases fst with
    | none =>
      exact ⟨by rw [hcanon], htried, fun _ => by rw [hcanon]⟩
    | some relId =>
      have ha := mbApplyFull_frame o relId snd
      refine ⟨?_, ?_, ?_⟩
      · rw [ha.1, hcanon]
      · rw [ha.2.1, htried]
      · intro ht
        have ht' : strTruthy snd.canonical.title = true := by
          rw [hcanon]
          exact ht
        rw [ha.2.2.2 ht', hcanon]

/-- The five HTML extractors write only `wikipedia.*` fields. -/
theorem extractors_frame (doc : WikiHtmlDoc) (s : Out) :
    ((extractTracklistFromHTML doc s).canonical = s.canonical ∧
      (extractTracklistFromHTML doc s).diagnostics = s.diagnostics) ∧
    ((extractPersonnelFromHTML doc s).canonical = s.canonical ∧
      (extractPersonnelFromHTML doc s).diagnostics = s.diagnostics) ∧
    ((extractAwardsFromHTML doc s).canonical = s.canonical ∧
      (extractAwardsFromHTML doc s).diagnostics = s.diagnostics) ∧
    ((extractLandmarksFromHTML doc s).canonical = s.canonical ∧
      (extractLandmarksFromHTML doc s).diagnostics = s.diagnostics) ∧
    ((extractCertificationsFromHTML doc s).canonical = s.canonical ∧
      (extractCertificationsFromHTML doc s).diagnostics = s.diagnostics) := by
  refine ⟨?_, ?_, ?_, ?_, ?_⟩
  · rw [extractTracklistFromHTML]
    split <;> exact ⟨rfl, rfl⟩
  · rw [extractPersonnelFromHTML]
    split <;> exact ⟨rfl, rfl⟩
  · rw [extractAwardsFromHTML]
    split <;> exact ⟨rfl, rfl⟩
  · rw [extractLandmarksFromHTML]
    split <;> exact ⟨rfl, rfl⟩
  · rw [extractCertificationsFromHTML]
    split <;> exact ⟨rfl, rfl⟩

/-- The whole extractor chain writes only `wikipedia.*` fields. -/
theorem extractorChain_frame (doc : WikiHtmlDoc) (s : Out) :
    (extractCertificationsFromHTML doc
      (extractLandmarksFromHTML doc
        (extractAwardsFromHTML doc
          (extractPersonnelFromHTML doc
            (extractTracklistFromHTML doc s))))).canonical = s.canonical ∧
    (extractCertificationsFromHTML doc
      (extractLandmarksFromHTML doc
        (extractAwardsFromHTML doc
          (extractPersonnelFromHTML doc
            (extractTracklistFromHTML doc s))))).diagnostics = s.diagnostics := by
  have h1 := (extractors_frame doc s).1
  have h2 := (extractors_frame doc (extractTracklistFromHTML doc s)).2.1
  have h3 := (extractors_frame doc
    (extractPersonnelFromHTML doc (extractTracklistFromHTML doc s))).2.2.1
  have h4 := (extractors_frame doc
    (extractAwardsFromHTML doc
      (extractPersonnelFromHTML doc (extractTracklistFromHTML doc s)))).2.2.2.1
  have h5 := (extractors_frame doc
    (extractLandmarksFromHTML doc
      (extractAwardsFromHTML doc
        (extractPersonnelFromHTML doc (extractTracklistFromHTML doc s))))).2.2.2.2
  exact ⟨by rw [h5.1, h4.1, h3.1, h2.1, h1.1], by rw [h5.2, h4.2, h3.2, h2.2, h1.2]⟩

/-- Frame for the Discogs resolver: format, tried barcodes and `matched_on`
are preserved, and a non-empty title is never overwritten. -/
theorem resolveDiscogsByUPC_frame (o : Oracle) (seed : Seed) (s : Out) :
    (resolveDiscogsByUPC o seed s).canonical.format = s.canonical.format ∧
    (resolveDiscogsByUPC o seed s).diagnostics.tried_barcodes =
      s.diagnostics.tried_barcodes ∧
    (resolveDiscogsByUPC o seed s).diagnostics.matched_on = s.diagnostics.matched_on ∧
    (strTruthy s.canonical.title →
      (resolveDiscogsByUPC o seed s).canonical.title = s.canonical.title) := by
  rw [resolveDiscogsByUPC]
  split
  · exact ⟨rfl, rfl, rfl, fun _ => rfl⟩
  · dsimp only
    split
    · exact ⟨rfl, rfl, rfl, fun _ => rfl⟩
    · split
      · exact ⟨rfl, rfl, rfl, fun _ => rfl⟩
      · rename_i data hit _
        have hf := discogsFillCanonical_frame (getStr seed.upc) hit s.canonical
        exact ⟨hf.1, rfl, rfl, fun ht => hf.2 ht⟩

/-- Frame for the Wikidata/Wikipedia resolver: the canonical record and the
tried barcodes (indeed the whole diagnostics except `wd_http`) are
untouched. -/
theorem wdBlocks_frame (o : Oracle) (s : Out) :
    ((wdAlbumQidByRG o s).canonical = s.canonical ∧
      (wdAlbumQidByRG o s).diagnostics.tried_barcodes = s.diagnostics.tried_barcodes ∧
      (wdAlbumQidByRG o s).diagnostics.matched_on = s.diagnostics.matched_on) ∧
    ((wdAlbumQidByTitle o s).canonical = s.canonical ∧
      (wdAlbumQidByTitle o s).diagnostics.tried_barcodes = s.diagnostics.tried_barcodes ∧
      (wdAlbumQidByTitle o s).diagnostics.matched_on = s.diagnostics.matched_on) ∧
    ((wdArtistQidByMB o s).canonical = s.canonical ∧
      (wdArtistQidByMB o s).diagnostics.tried_barcodes = s.diagnostics.tried_barcodes ∧
      (wdArtistQidByMB o s).diagnostics.matched_on = s.diagnostics.matched_on) ∧
    ((wdArtistQidByP175 o s).canonical = s.canonical ∧
      (wdArtistQidByP175 o s).diagnostics.tried_barcodes = s.diagnostics.tried_barcodes ∧
      (wdArtistQidByP175 o s).diagnostics.matched_on = s.diagnostics.matched_on) ∧
    ((wdSitelink o s).canonical = s.canonical ∧
      (wdSitelink o s).diagnostics.tried_barcodes = s.diagnostics.tried_barcodes ∧
      (wdSitelink o s).diagnostics.matched_on = s.diagnostics.matched_on) := by
  refine ⟨?_, ?_, ?_, ?_, ?_⟩
  · rw [wdAlbumQidByRG]
    split
    · dsimp only
      have hf := sparqlCall_frame
        (o.sparqlRG ((s.ids.mb_release_group.map (·.id)).getD "")) "SPARQL:MBRG->Q" s
      split
      · split
        · exact ⟨hf.1, hf.2.2.1, hf.2.2.2.1⟩
        · exact ⟨hf.1, hf.2.2.1, hf.2.2.2.1⟩
      · exact ⟨hf.1, hf.2.2.1, hf.2.2.2.1⟩
    · exact ⟨rfl, rfl, rfl⟩
  · rw [wdAlbumQidByTitle]
    split
    · dsimp only
      have hf := sparqlCall_frame
        (o.sparqlTitleArtist (getStr s.canonical.title) (getStr s.canonical.artist))
        "SPARQL:title+artist->Q" s
      split
      · split
        · exact ⟨hf.1, hf.2.2.1, hf.2.2.2.1⟩
        · exact ⟨hf.1, hf.2.2.1, hf.2.2.2.1⟩
      · exact ⟨hf.1, hf.2.2.1, hf.2.2.2.1⟩
    · exact ⟨rfl, rfl, rfl⟩
  · rw [wdArtistQidByMB]
    split
    · dsimp only
      have hf := sparqlCall_frame
        (o.sparqlArtist ((s.ids.mb_artist_id.map (·.id)).getD "")) "SPARQL:MBArtist->Q" s
      split
      · split
        · exact ⟨hf.1, hf.2.2.1, hf.2.2.2.1⟩
        · exact ⟨hf.1, hf.2.2.1, hf.2.2.2.1⟩
      · exact ⟨hf.1, hf.2.2.1, hf.2.2.2.1⟩
    · exact ⟨rfl, rfl, rfl⟩
  · rw [wdArtistQidByP175]
    split
    · dsimp only
      have hf := fetchWikidataEntity_frame o
        ((s.ids.wikidata_qid.map (·.id)).getD "") s
      split
      · exact ⟨hf.1, hf.2.2.1, hf.2.2.2⟩
      · exact ⟨hf.1, hf.2.2.1, hf.2.2.2⟩
    · exact ⟨rfl, rfl, rfl⟩
  · rw [wdSitelink]
    split
    · split
      · dsimp only
        have hf := fetchWikidataEntity_frame o
          ((s.ids.wikidata_qid.map (·.id)).getD "") s
        split
        · split
          · exact ⟨hf.1, hf.2.2.1, hf.2.2.2⟩
          · exact ⟨hf.1, hf.2.2.1, hf.2.2.2⟩
        · exact ⟨hf.1, hf.2.2.1, hf.2.2.2⟩
      · exact ⟨rfl, rfl, rfl⟩
    · exact ⟨rfl, rfl, rfl⟩

/-- Frame for the Wikidata/Wikipedia resolver: the canonical record, the
tried barcodes and `matched_on` are untouched. -/
theorem resolveWikidata_frame (o : Oracle) (seed : Seed) (s : Out) :
    (resolveWikidataAndWikipedia o seed s).canonical = s.canonical ∧
    (resolveWikidataAndWikipedia o seed s).diagnostics.tried_barcodes =
      s.diagnostics.tried_barcodes ∧
    (resolveWikidataAndWikipedia o seed s).diagnostics.matched_on =
      s.diagnostics.matched_on := by
  rw [resolveWikidataAndWikipedia]
  split
  · exact ⟨rfl, rfl, rfl⟩
  · have h1 := (wdBlocks_frame o s).1
    have h2 := (wdBlocks_frame o (wdAlbumQidByRG o s)).2.1
    have halbum : (wdAlbumQid o s).canonical = s.canonical ∧
        (wdAlbumQid o s).diagnostics.tried_barcodes = s.diagnostics.tried_barcodes ∧
        (wdAlbumQid o s).diagnostics.matched_on = s.diagnostics.matched_on := by
      rw [wdAlbumQid]
      split
      · exact ⟨rfl, rfl, rfl⟩
      · exact ⟨by rw [h2.1, h1.1], by rw [h2.2.1, h1.2.1], by rw [h2.2.2, h1.2.2]⟩
    have h3 := (wdBlocks_frame o (wdAlbumQid o s)).2.2.1
    have h4 := (wdBlocks_frame o (wdArtistQidByMB o (wdAlbumQid o s))).2.2.2.1
    have hartist : (wdArtistQid o (wdAlbumQid o s)).canonical = s.canonical ∧
        (wdArtistQid o (wdAlbumQid o s)).diagnostics.tried_barcodes =
          s.diagnostics.tried_barcodes ∧
        (wdArtistQid o (wdAlbumQid o s)).diagnostics.matched_on =
          s.diagnostics.matched_on := by
      rw [wdArtistQid]
      split
      · exact halbum
      · exact ⟨by rw [h4.1, h3.1, halbum.1], by rw [h4.2.1, h3.2.1, halbum.2.1],
          by rw [h4.2.2, h3.2.2, halbum.2.2]⟩
    have h5 := (wdBlocks_frame o (wdArtistQid o (wdAlbumQid o s))).2.2.2.2
    exact ⟨by rw [h5.1, hartist.1], by rw [h5.2.1, hartist.2.1],
      by rw [h5.2.2, hartist.2.2]⟩

/-- Frame for the Wikipedia enrichment: the canonical title (only the cover
URL can be filled here), the format set, the tried barcodes and
`matched_on` are all preserved. -/
theorem enrichFromWikipedia_frame (o : Oracle) (seed : Seed) (s : Out) :
    (enrichFromWikipedia o seed s).canonical.title = s.canonical.title ∧
    (enrichFromWikipedia o seed s).canonical.format = s.canonical.format ∧
    (enrichFromWikipedia o seed s).diagnostics.tried_barcodes =
      s.diagnostics.tried_barcodes ∧
    (enrichFromWikipedia o seed s).diagnostics.matched_on =
      s.diagnostics.matched_on := by
  rw [enrichFromWikipedia]
  split
  · exact ⟨rfl, rfl, rfl, rfl⟩
  · dsimp only
    repeat' split
    all_goals
      first
      | exact ⟨rfl, rfl, rfl, rfl⟩
      | exact ⟨by rw [(extractorChain_frame _ _).1],
          by rw [(extractorChain_frame _ _).1],
          by rw [(extractorChain_frame _ _).2],
          by rw [(extractorChain_frame _ _).2]⟩

/-- Frame for one P18 gallery iteration. -/
theorem galleryStep_frame (o : Oracle) (acc : Out) (f : String) :
    (galleryStep o acc f).canonical = acc.canonical ∧
    (galleryStep o acc f).diagnostics.tried_barcodes =
      acc.diagnostics.tried_barcodes ∧
    (galleryStep o acc f).diagnostics.matched_on = acc.diagnostics.matched_on := by
  have hf := commonsImageInfo_frame o f acc
  rw [galleryStep]
  split
  · dsimp only
    split
    · exact ⟨hf.1, hf.2.2.1, hf.2.2.2⟩
    · exact ⟨hf.1, hf.2.2.1, hf.2.2.2⟩
  · exact ⟨hf.1, hf.2.2.1, hf.2.2.2⟩

/-- Frame for the P18 fold. -/
theorem galleryFold_frame (o : Oracle) (files : List String) :
    ∀ acc : Out,
      (files.foldl (galleryStep o) acc).canonical = acc.canonical ∧
      (files.foldl (galleryStep o) acc).diagnostics.tried_barcodes =
        acc.diagnostics.tried_barcodes ∧
      (files.foldl (galleryStep o) acc).diagnostics.matched_on =
        acc.diagnostics.matched_on := by
  induction files with
  | nil => exact fun acc => ⟨rfl, rfl, rfl⟩
  | cons f rest ih =>
    intro acc
    have hstep := galleryStep_frame o acc f
    have hrest := ih (galleryStep o acc f)
    exact ⟨by rw [List.foldl_cons, hrest.1, hstep.1],
      by rw [List.foldl_cons, hrest.2.1, hstep.2.1],
      by rw [List.foldl_cons, hrest.2.2, hstep.2.2]⟩

/-- Frame for the image gallery builder: the canonical record, the tried
barcodes and `matched_on` are untouched. -/
theorem buildImageGalleries_frame (o : Oracle) (seed : Seed) (s : Out) :
    (buildImageGalleries o seed s).canonical = s.canonical ∧
    (buildImageGalleries o seed s).diagnostics.tried_barcodes =
      s.diagnostics.tried_barcodes ∧
    (buildImageGalleries o seed s).diagnostics.matched_on =
      s.diagnostics.matched_on := by
  rw [buildImageGalleries]
  split
  · exact ⟨rfl, rfl, rfl⟩
  · dsimp only
    have hent := fetchWikidataEntity_frame o
      ((s.ids.artist_wikidata_qid.map (·.id)).getD "") s
    have hfold := galleryFold_frame o
      ((((((fetchWikidataEntity o ((s.ids.artist_wikidata_qid.map (·.id)).getD "")
        s).1.map (·.claimsP18)).getD []).filterMap (fun f =>
          match f with
          | some x => if x ≠ "" then some x else none
          | none => none)).take s.flags.max_images))
      (fetchWikidataEntity o ((s.ids.artist_wikidata_qid.map (·.id)).getD "") s).2
    exact ⟨by rw [hfold.1, hent.1], by rw [hfold.2.1, hent.2.2.1],
      by rw [hfold.2.2, hent.2.2.2]⟩

/-- Frame for finalization: only the format set can change, and it becomes
the default exactly when it was empty. -/
theorem finalizeCanonical_frame (s : Out) :
    (finalizeCanonical s).canonical.title = s.canonical.title ∧
    (finalizeCanonical s).diagnostics = s.diagnostics ∧
    (finalizeCanonical s).canonical.format =
      (if s.canonical.format = [] then ["Album"] else s.canonical.format) := by
  rw [finalizeCanonical]
  split
  · exact ⟨rfl, rfl, by rfl⟩
  · exact ⟨rfl, rfl, by rfl⟩

/-- Frame for download aggregation: only the download list changes. -/
theorem aggregateDownloadList_frame (s : Out) :
    (aggregateDownloadList s).canonical = s.canonical ∧
    (aggregateDownloadList s).diagnostics = s.diagnostics := by
  exact ⟨rfl, rfl⟩

/-- **C1.** The canonical title is write-once: whenever the title already
holds a non-empty value, every later stage of the pipeline — Discogs,
MusicBrainz, the Wikidata resolver, Wikipedia enrichment, the gallery
builder, finalization and download aggregation — leaves it unchanged, for
every seed and every network behaviour (each stage's title write is guarded
by the field still being empty). -/
theorem canonical_title_write_once (o : Oracle) (seed : Seed) (s : Out)
    (h : strTruthy s.canonical.title) :
    (resolveDiscogsByUPC o seed s).canonical.title = s.canonical.title ∧
    (resolveMusicBrainz o seed s).canonical.title = s.canonical.title ∧
    (resolveWikidataAndWikipedia o seed s).canonical.title = s.canonical.title ∧
    (enrichFromWikipedia o seed s).canonical.title = s.canonical.title ∧
    (buildImageGalleries o seed s).canonical.title = s.canonical.title ∧
    (finalizeCanonical s).canonical.title = s.canonical.title ∧
    (aggregateDownloadList s).canonical.title = s.canonical.title := by
  refine ⟨?_, ?_, ?_, ?_, ?_, ?_, ?_⟩
  · exact (resolveDiscogsByUPC_frame o seed s).2.2.2 h
  · exact (resolveMusicBrainz_frame o seed s).2.2 h
  · rw [(resolveWikidata_frame o seed s).1]
  · exact (enrichFromWikipedia_frame o seed s).1
  · rw [(buildImageGalleries_frame o seed s).1]
  · exact (finalizeCanonical_frame s).1
  · rw [(aggregateDownloadList_frame s).1]

/-- Witness for `canonical_title_write_once` at a concrete state whose
title is already set, under the all-404 network. -/
theorem canonical_title_write_once_witness :
    (resolveMusicBrainz oracle0 { artist := some "Miles Davis" }
        { initOut flags0 with canonical := { title := some "Kind of Blue" } }
      ).canonical.title = some "Kind of Blue" ∧
    (finalizeCanonical
        { initOut flags0 with canonical := { title := some "Kind of Blue" } }
      ).canonical.title = some "Kind of Blue" := by
  have h := canonical_title_write_once oracle0 { artist := some "Miles Davis" }
    { initOut flags0 with canonical := { title := some "Kind of Blue" } } (by decide)
  exact ⟨h.2.1, h.2.2.2.2.2.1⟩

/-- **C10.** On every run that reaches finalization, the output's canonical
format is exactly `["Album"]`, for every seed, flag set and network
behaviour: no resolution stage ever writes `canonical.format`, so the
finalize default is always applied. -/
theorem canonical_format_always_album (o : Oracle) (flags : Flags) (seed : Seed) :
    (runPipeline o flags seed).canonical.format = ["Album"] := by
  simp only [runPipeline]
  set seed1 := (normalizeSeed seed (initOut flags)).1 with hseed1
  set out1 := (normalizeSeed seed (initOut flags)).2 with hout1
  have h0 : out1.canonical.format = [] := by
    rw [hout1, normalizeSeed]
    rfl
  set out2 := if strTruthy seed1.upc then resolveDiscogsByUPC o seed1 out1 else out1
    with hout2
  have h2 : out2.canonical.format = [] := by
    rw [hout2]
    split
    · rw [(resolveDiscogsByUPC_frame o seed1 out1).1, h0]
    · exact h0
  have h3 : (resolveMusicBrainz o seed1 out2).canonical.format = [] := by
    rw [(resolveMusicBrainz_frame o seed1 out2).1, h2]
  have h4 : (resolveWikidataAndWikipedia o seed1
      (resolveMusicBrainz o seed1 out2)).canonical.format = [] := by
    rw [(resolveWikidata_frame o seed1 (resolveMusicBrainz o seed1 out2)).1, h3]
  have h5 : (enrichFromWikipedia o seed1 (resolveWikidataAndWikipedia o seed1
      (resolveMusicBrainz o seed1 out2))).canonical.format = [] := by
    rw [(enrichFromWikipedia_frame o seed1 _).2.1, h4]
  set out5 := enrichFromWikipedia o seed1 (resolveWikidataAndWikipedia o seed1
    (resolveMusicBrainz o seed1 out2)) with hout5
  set out6 := if flags.images ≠ "none" then buildImageGalleries o seed1 out5 else out5
    with hout6
  have h6 : out6.canonical.format = [] := by
    rw [hout6]
    split
    · rw [(buildImageGalleries_frame o seed1 out5).1, h5]
    · exact h5
  have h7 := (finalizeCanonical_frame out6).2.2
  rw [(aggregateDownloadList_frame (finalizeCanonical out6)).1, h7, if_pos h6]

/-- **C3 (counterexample).** A run whose only seed is an explicit release
MBID resolves successfully through strategy 2 — the release id is set and
the canonical title is filled from the hydrated release — yet
`diagnostics.matched_on` is left `null`: the explicit-ID strategy records
no provenance tag. -/
theorem matched_on_null_for_explicit_id :
    (runPipeline oracleMbid flags0 { mbid := some "R1" }).ids.mb_release_mbid =
      some ⟨"R1", "https://musicbrainz.org/release/R1"⟩ ∧
    (runPipeline oracleMbid flags0 { mbid := some "R1" }).canonical.title =
      some "Kind of Blue" ∧
    (runPipeline oracleMbid flags0 { mbid := some "R1" }).diagnostics.matched_on =
      none := by
  exact ⟨rfl, rfl, rfl⟩

/-- When some candidate barcode search has results, the 3a loop finds a
candidate. -/
theorem mbBarcodeLoop_finds (o : Oracle) (bcs : List String) :
    ∀ s : Out, (∃ bc ∈ bcs, mbSearchHasResults o bc) →
      (mbBarcodeLoop o bcs s).1.isSome := by
  induction bcs with
  | nil =>
    intro s h
    simp at h
  | cons bc rest ih =>
    intro s h
    rw [mbBarcodeLoop]
    cases hres : (mbBarcodeSearch o bc).result with
    | some search =>
      cases hhead : search.releases.head? with
      | some stub => simp [hres, hhead]
      | none =>
        simp only [hres, hhead]
        apply ih
        rcases h with ⟨b, hb, hhit⟩
        rcases List.mem_cons.mp hb with rfl | hb'
        · exfalso
          rw [mbSearchHasResults, hres] at hhit
          rw [List.head?_eq_none_iff] at hhead
          simp [hhead] at hhit
        · exact ⟨b, hb', hhit⟩
    | none =>
      simp only [hres]
      apply ih
      rcases h with ⟨b, hb, hhit⟩
      rcases List.mem_cons.mp hb with rfl | hb'
      · exfalso
        rw [mbSearchHasResults, hres] at hhit
        simp at hhit
      · exact ⟨b, hb', hhit⟩

/-- **C3 (amended).** `diagnostics.matched_on` records the strategy for the
two search strategies only: a successful barcode search records `"upc"` and
a successful artist+title search records `"artist+title"`, but a resolution
through an explicit release MBID (strategy 2) records nothing —
`matched_on` keeps its previous value (null at pipeline start). -/
theorem matched_on_provenance (o : Oracle) (seed : Seed) (s : Out) :
    (strTruthy seed.upc →
      (∃ bc ∈ mbBarcodeCandidates s.diagnostics.tried_barcodes,
        mbSearchHasResults o bc) →
      (resolveMusicBrainz o seed s).diagnostics.matched_on = some "upc") ∧
    (¬ strTruthy seed.upc → strTruthy seed.mbid →
      isOkStatus (o.mbRelease (getStr seed.mbid)).status →
      (resolveMusicBrainz o seed s).diagnostics.matched_on =
        s.diagnostics.matched_on) ∧
    (¬ strTruthy seed.upc → ¬ strTruthy seed.mbid →
      ¬ strTruthy seed.mb_release_mbid →
      strTruthy (jsOr seed.artist s.canonical.artist) →
      strTruthy (jsOr seed.title s.canonical.title) →
      mbTextHasResults o (getStr (jsOr seed.title s.canonical.title))
        (getStr (jsOr seed.artist s.canonical.artist)) →
      (resolveMusicBrainz o seed s).diagnostics.matched_on =
        some "artist+title") := by
  refine ⟨?_, ?_, ?_⟩
  · intro hupc hex
    rw [resolveMusicBrainz, mbFindCandidate]
    have h3a : mbPhase3a o seed s =
        mbBarcodeLoop o (mbBarcodeCandidates s.diagnostics.tried_barcodes) s := by
      rw [mbPhase3a, if_pos hupc]
    have hsome := mbBarcodeLoop_finds o
      (mbBarcodeCandidates s.diagnostics.tried_barcodes) s hex
    have hloop := mbBarcodeLoop_frame o
      (mbBarcodeCandidates s.diagnostics.tried_barcodes) s
    rw [h3a]
    cases hpair : mbBarcodeLoop o (mbBarcodeCandidates s.diagnostics.tried_barcodes) s
      with
    | mk c s1 =>
      rw [hpair] at hsome hloop
      have hmo := hloop.2.2.2.1 hsome
      obtain ⟨i, rfl⟩ := Option.isSome_iff_exists.mp hsome
      simp only [mbPhase3bMbid, mbPhase3bRel, mbPhase3c]
      rw [(mbApplyFull_frame o i s1).2.2.1]
      exact hmo
  · intro hnupc hmbid hok
    rw [resolveMusicBrainz, mbFindCandidate]
    have h3a : mbPhase3a o seed s = (none, s) := by
      rw [mbPhase3a, if_neg hnupc]
    rw [h3a]
    simp only [mbPhase3bMbid, if_pos hmbid]
    simp only [hydrateMBRelease, if_pos hok]
    simp only [mbPhase3bRel, mbPhase3c]
    rw [(mbApplyFull_frame o _ _).2.2.1]
  · intro hnupc hnmbid hnrel hart htit hhit
    rw [resolveMusicBrainz, mbFindCandidate]
    have h3a : mbPhase3a o seed s = (none, s) := by
      rw [mbPhase3a, if_neg hnupc]
    rw [h3a]
    simp only [mbPhase3bMbid, if_neg hnmbid]
    simp only [mbPhase3bRel, if_neg hnrel]
    rw [mbPhase3c]
    rw [if_pos ⟨hart, htit⟩]
    rw [mbTextHasResults] at hhit
    dsimp only
    cases hres : (mbTextSearch o (getStr (jsOr seed.title s.canonical.title))
        (getStr (jsOr seed.artist s.canonical.artist))).result with
    | some search =>
      cases hhead : search.releases.head? with
      | some stub =>
        simp only [hres, hhead]
        rw [(mbApplyFull_frame o _ _).2.2.1]
      | none =>
        exfalso
        rw [hres] at hhit
        rw [List.head?_eq_none_iff] at hhead
        simp [hhead] at hhit
    | none =>
      exfalso
      rw [hres] at hhit
      simp at hhit

/-- Witness for `matched_on_provenance`: all three conjuncts applied at
concrete runs against the three single-endpoint oracles. -/
theorem matched_on_provenance_witness :
    (resolveMusicBrainz oracleBarcode { upc := some "888751119215" }
        { initOut flags0 with diagnostics :=
            { tried_barcodes := ["888751119215"] } }).diagnostics.matched_on =
      some "upc" ∧
    (resolveMusicBrainz oracleMbid { mbid := some "R1" }
        (initOut flags0)).diagnostics.matched_on = none ∧
    (resolveMusicBrainz oracleText
        { artist := some "Miles Davis", title := some "Kind of Blue" }
        (initOut flags0)).diagnostics.matched_on = some "artist+title" := by
  refine ⟨?_, ?_, ?_⟩
  · exact (matched_on_provenance oracleBarcode { upc := some "888751119215" }
      { initOut flags0 with diagnostics :=
          { tried_barcodes := ["888751119215"] } }).1 (by decide) (by decide)
  · exact (matched_on_provenance oracleMbid { mbid := some "R1" }
      (initOut flags0)).2.1 (by decide) (by decide) (by decide)
  · exact (matched_on_provenance oracleText
      { artist := some "Miles Davis", title := some "Kind of Blue" }
      (initOut flags0)).2.2 (by decide) (by decide) (by decide) (by decide)
      (by decide) (by decide)

/-- No stage after seed normalization touches `tried_barcodes`. -/
theorem runPipeline_tried (o : Oracle) (flags : Flags) (seed : Seed) :
    (runPipeline o flags seed).diagnostics.tried_barcodes =
      (normalizeSeed seed (initOut flags)).2.diagnostics.tried_barcodes := by
  simp only [runPipeline]
  set seed1 := (normalizeSeed seed (initOut flags)).1 with hseed1
  set out1 := (normalizeSeed seed (initOut flags)).2 with hout1
  set out2 := if strTruthy seed1.upc then resolveDiscogsByUPC o seed1 out1 else out1
    with hout2
  have h2 : out2.diagnostics.tried_barcodes = out1.diagnostics.tried_barcodes := by
    rw [hout2]
    split
    · exact (resolveDiscogsByUPC_frame o seed1 out1).2.1
    · rfl
  have h3 := (resolveMusicBrainz_frame o seed1 out2).2.1
  have h4 := (resolveWikidata_frame o seed1 (resolveMusicBrainz o seed1 out2)).2.1
  have h5 := (enrichFromWikipedia_frame o seed1 (resolveWikidataAndWikipedia o seed1
    (resolveMusicBrainz o seed1 out2))).2.2.1
  set out5 := enrichFromWikipedia o seed1 (resolveWikidataAndWikipedia o seed1
    (resolveMusicBrainz o seed1 out2)) with hout5
  set out6 := if flags.images ≠ "none" then buildImageGalleries o seed1 out5 else out5
    with hout6
  have h6 : out6.diagnostics.tried_barcodes = out5.diagnostics.tried_barcodes := by
    rw [hout6]
    split
    · exact (buildImageGalleries_frame o seed1 out5).2.1
    · rfl
  have h7 := congrArg Diagnostics.tried_barcodes (finalizeCanonical_frame out6).2.1
  have h8 := congrArg Diagnostics.tried_barcodes
    (aggregateDownloadList_frame (finalizeCanonical out6)).2
  rw [h8, h7, h6, hout5, h5, h4, h3, h2]

/-- **C5.** When the canonical barcode has exactly 12 digits, the ordered
list of tried barcode variants produced by the run contains exactly two
entries — the 12-digit form first, then its zero-left-padded 13-digit form —
and the candidate list the MusicBrainz barcode search iterates over is that
same two-element list in the same order; when the canonical barcode has 13
digits, exactly one variant is tried. -/
theorem barcode_variant_order (o : Oracle) (flags : Flags) (seed : Seed) (u : String)
    (hn : normalizeBarcode seed.upc = some u) :
    (u.data.length = 12 →
      (runPipeline o flags seed).diagnostics.tried_barcodes = [u, "0" ++ u] ∧
      mbBarcodeCandidates ((runPipeline o flags seed).diagnostics.tried_barcodes) =
        [u, "0" ++ u]) ∧
    (u.data.length = 13 →
      (runPipeline o flags seed).diagnostics.tried_barcodes = [u] ∧
      mbBarcodeCandidates ((runPipeline o flags seed).diagnostics.tried_barcodes) =
        [u]) := by
  constructor
  · intro h12
    have hune : u ≠ "" := by
      intro h
      rw [string_eq_empty_iff] at h
      rw [h] at h12
      simp at h12
    have hpad : padStartZero ("0" ++ u) 13 = "0" ++ u := by
      rw [padStartZero, if_pos]
      rw [String.data_append]
      simp [h12]
    have htail : (runPipeline o flags seed).diagnostics.tried_barcodes =
        [u, "0" ++ u] := by
      have h12l : u.length = 12 := h12
      rw [runPipeline_tried]
      simp only [normalizeSeed, hn]
      simp [strTruthy, getStr, initOut, hune, h12l, hpad]
    have hzne : ("0" ++ u) ≠ "" := by
      intro h
      rw [string_eq_empty_iff, String.data_append] at h
      simp at h
    have hzu : ¬ ("0" ++ u) = u := by
      intro h
      have hlen : ("0" ++ u).data.length = u.data.length := by rw [h]
      rw [String.data_append] at hlen
      simp at hlen
    refine ⟨htail, ?_⟩
    rw [htail]
    simp [mbBarcodeCandidates, dedupe, setDedupAux, hune, hzne, hzu]
  · intro h13
    have hune : u ≠ "" := by
      intro h
      rw [string_eq_empty_iff] at h
      rw [h] at h13
      simp at h13
    have hne12 : ¬ u.data.length = 12 := by omega
    have htail : (runPipeline o flags seed).diagnostics.tried_barcodes = [u] := by
      have hne12l : ¬ u.length = 12 := hne12
      rw [runPipeline_tried]
      simp only [normalizeSeed, hn]
      simp [strTruthy, getStr, initOut, hune, hne12l]
    refine ⟨htail, ?_⟩
    rw [htail]
    simp [mbBarcodeCandidates, dedupe, setDedupAux, hune]

/-- Witness for `barcode_variant_order` at the concrete 12-digit barcode
`888751119215` and the 13-digit barcode `0888751119215`. -/
theorem barcode_variant_order_witness :
    (runPipeline oracle0 flags0 { upc := some "888751119215" }).diagnostics.tried_barcodes =
      ["888751119215", "0888751119215"] ∧
    mbBarcodeCandidates
      ((runPipeline oracle0 flags0 { upc := some "888751119215" }).diagnostics.tried_barcodes) =
      ["888751119215", "0888751119215"] ∧
    (runPipeline oracle0 flags0 { upc := some "0888751119215" }).diagnostics.tried_barcodes =
      ["0888751119215"] := by
  have h12 := (barcode_variant_order oracle0 flags0 { upc := some "888751119215" }
    "888751119215" (by decide)).1 (by decide)
  have h13 := (barcode_variant_order oracle0 flags0 { upc := some "0888751119215" }
    "0888751119215" (by decide)).2 (by decide)
  refine ⟨?_, ?_, h13.1⟩
  · have := h12.1
    simpa using this
  · have := h12.2
    simpa using this

/-- The Discogs resolver reads only `seed.upc`. -/
theorem resolveDiscogs_seed_congr (o : Oracle) (s1 s2 : Seed) (out : Out)
    (h : s1.upc = s2.upc) :
    resolveDiscogsByUPC o s1 out = resolveDiscogsByUPC o s2 out := by
  simp only [resolveDiscogsByUPC, h]

/-- Strategy 3a reads only `seed.upc`. -/
theorem mbPhase3a_seed_congr (o : Oracle) (s1 s2 : Seed) (out : Out)
    (h : s1.upc = s2.upc) :
    mbPhase3a o s1 out = mbPhase3a o s2 out := by
  simp only [mbPhase3a, h]

/-- The `mbid` phase reads only `seed.mbid`. -/
theorem mbPhase3bMbid_seed_congr (o : Oracle) (s1 s2 : Seed) (r : Option String × Out)
    (h : s1.mbid = s2.mbid) :
    mbPhase3bMbid o s1 r = mbPhase3bMbid o s2 r := by
  obtain ⟨c, s⟩ := r
  cases c with
  | some i => rfl
  | none => simp only [mbPhase3bMbid, h]

/-- The `mb_release_mbid` phase reads only `seed.mb_release_mbid`. -/
theorem mbPhase3bRel_seed_congr (o : Oracle) (s1 s2 : Seed) (r : Option String × Out)
    (h : s1.mb_release_mbid = s2.mb_release_mbid) :
    mbPhase3bRel o s1 r = mbPhase3bRel o s2 r := by
  obtain ⟨c, s⟩ := r
  cases c with
  | some i => rfl
  | none => simp only [mbPhase3bRel, h]

/-- The artist+title phase reads only `seed.artist` and `seed.title`. -/
theorem mbPhase3c_seed_congr (o : Oracle) (s1 s2 : Seed) (r : Option String × Out)
    (ha : s1.artist = s2.artist) (ht : s1.title = s2.title) :
    mbPhase3c o s1 r = mbPhase3c o s2 r := by
  obtain ⟨c, s⟩ := r
  cases c with
  | some i => rfl
  | none => simp only [mbPhase3c, ha, ht]

/-- The MusicBrainz resolver reads only the five consumed seed fields. -/
theorem resolveMusicBrainz_seed_congr (o : Oracle) (s1 s2 : Seed) (out : Out)
    (hupc : s1.upc = s2.upc) (hmbid : s1.mbid = s2.mbid)
    (hrel : s1.mb_release_mbid = s2.mb_release_mbid)
    (hart : s1.artist = s2.artist) (htit : s1.title = s2.title) :
    resolveMusicBrainz o s1 out = resolveMusicBrainz o s2 out := by
  have hfind : mbFindCandidate o s1 out = mbFindCandidate o s2 out := by
    rw [mbFindCandidate, mbFindCandidate,
      mbPhase3a_seed_congr o s1 s2 out hupc,
      mbPhase3bMbid_seed_congr o s1 s2 _ hmbid,
      mbPhase3bRel_seed_congr o s1 s2 _ hrel,
      mbPhase3c_seed_congr o s1 s2 _ hart htit]
  rw [resolveMusicBrainz, resolveMusicBrainz, hfind]

/-- The Wikidata resolver ignores the seed entirely. -/
theorem resolveWikidata_seed_congr (o : Oracle) (s1 s2 : Seed) (out : Out) :
    resolveWikidataAndWikipedia o s1 out = resolveWikidataAndWikipedia o s2 out := rfl

/-- The Wikipedia enrichment ignores the seed entirely. -/
theorem enrichFromWikipedia_seed_congr (o : Oracle) (s1 s2 : Seed) (out : Out) :
    enrichFromWikipedia o s1 out = enrichFromWikipedia o s2 out := rfl

/-- The gallery builder ignores the seed entirely. -/
theorem buildImageGalleries_seed_congr (o : Oracle) (s1 s2 : Seed) (out : Out) :
    buildImageGalleries o s1 out = buildImageGalleries o s2 out := rfl

/-- The whole pipeline reads only `upc`, `mbid`, `mb_release_mbid`,
`artist` and `title` from the seed: two seeds agreeing on those five fields
produce identical outputs under every network behaviour. -/
theorem runPipeline_seed_congr (o : Oracle) (flags : Flags) (s1 s2 : Seed)
    (hupc : s1.upc = s2.upc) (hmbid : s1.mbid = s2.mbid)
    (hrel : s1.mb_release_mbid = s2.mb_release_mbid)
    (hart : s1.artist = s2.artist) (htit : s1.title = s2.title) :
    runPipeline o flags s1 = runPipeline o flags s2 := by
  simp only [runPipeline]
  have hn1upc : (normalizeSeed s1 (initOut flags)).1.upc =
      (normalizeSeed s2 (initOut flags)).1.upc := by
    simp [normalizeSeed, hupc]
  have hn1mbid : (normalizeSeed s1 (initOut flags)).1.mbid =
      (normalizeSeed s2 (initOut flags)).1.mbid := by
    simp [normalizeSeed, hmbid]
  have hn1rel : (normalizeSeed s1 (initOut flags)).1.mb_release_mbid =
      (normalizeSeed s2 (initOut flags)).1.mb_release_mbid := by
    simp [normalizeSeed, hrel]
  have hn1art : (normalizeSeed s1 (initOut flags)).1.artist =
      (normalizeSeed s2 (initOut flags)).1.artist := by
    simp [normalizeSeed, hart]
  have hn1tit : (normalizeSeed s1 (initOut flags)).1.title =
      (normalizeSeed s2 (initOut flags)).1.title := by
    simp [normalizeSeed, htit]
  have hnout : (normalizeSeed s1 (initOut flags)).2 =
      (normalizeSeed s2 (initOut flags)).2 := by
    simp [normalizeSeed, hupc]
  set n1 := (normalizeSeed s1 (initOut flags)).1 with hd1
  set n2 := (normalizeSeed s2 (initOut flags)).1 with hd2
  rw [hnout, hn1upc]
  set o1 := (normalizeSeed s2 (initOut flags)).2 with hdo
  have hdg : resolveDiscogsByUPC o n1 o1 = resolveDiscogsByUPC o n2 o1 :=
    resolveDiscogs_seed_congr o n1 n2 o1 hn1upc
  rw [hdg]
  set o2 := if strTruthy n2.upc then resolveDiscogsByUPC o n2 o1 else o1 with hdo2
  have hmb : resolveMusicBrainz o n1 o2 = resolveMusicBrainz o n2 o2 :=
    resolveMusicBrainz_seed_congr o n1 n2 o2 hn1upc hn1mbid hn1rel hn1art hn1tit
  rw [hmb]
  rw [resolveWikidata_seed_congr o n1 n2, enrichFromWikipedia_seed_congr o n1 n2,
    buildImageGalleries_seed_congr o n1 n2]

/-- **C2 (code evaluated at the failing inputs).** A seed whose only
populated field is the Wikidata entity id, a Discogs release or master id,
a MusicBrainz release-group id, or a MusicBrainz artist id produces exactly
the same output as the empty seed, for every flag set and every network
behaviour: those seed fields are parsed but never consumed by any
resolution stage. -/
theorem provider_id_seeds_ignored (o : Oracle) (flags : Flags) :
    runPipeline o flags { qid := some "Q283221" } = runPipeline o flags {} ∧
    runPipeline o flags { discogs := some "1064372" } = runPipeline o flags {} ∧
    runPipeline o flags { discogs_master_id := some "5460" } =
      runPipeline o flags {} ∧
    runPipeline o flags { mb_release_group := some "0c95e212" } =
      runPipeline o flags {} ∧
    runPipeline o flags { mb_artist_id := some "561d854a" } =
      runPipeline o flags {} :=
  ⟨runPipeline_seed_congr o flags _ _ rfl rfl rfl rfl rfl,
    runPipeline_seed_congr o flags _ _ rfl rfl rfl rfl rfl,
    runPipeline_seed_congr o flags _ _ rfl rfl rfl rfl rfl,
    runPipeline_seed_congr o flags _ _ rfl rfl rfl rfl rfl,
    runPipeline_seed_congr o flags _ _ rfl rfl rfl rfl rfl⟩

end Enricher
